import Mathlib

/-!
Shallow embedding of the occupancy-ledger core of `lounge.go` (the
`DeviceStatusLayoutWidget` variant, lines ~1700-3400): the station pool,
the active-occupant list, the daily event log, the slot-layout store and
the operations `registerUser`, `checkoutUser`, `assignQueuedUserToDevice`,
`recordLogEvent`, `formatDuration`, `ensureMapping`, `DragEnd`'s slot swap
and `nearestSlot`.

Modelling conventions:
- Go strings stay `String` (`"PC"`, `"Console"`, `"free"`, `"occupied"`).
- Go `int` device ids stay `Int`; times are modelled as whole seconds
  (`Nat`), with the Go zero `time.Time` of an open checkout rendered as
  `Option.none`.
- Go slices become `List`s; mutation through a pointer returned by a
  `getXByID` helper becomes an update of the first list element with the
  matching id.
- The imperative functions become state-passing functions returning
  `state × Option error`; an early `return err` in Go is rendered as
  returning the state exactly as it stood at that return site, so that
  "no mutation before the error" is a provable property, not a modelling
  artifact.
-/

namespace Lounge

/-- Go struct `Device` (station): id, Type ("PC" = primary / "Console" =
auxiliary), Status ("free"/"occupied"), UserID. The Go field `Type` is
rendered `typ` because `type` is a Lean keyword. -/
structure Device where
  id : Int
  typ : String
  status : String
  userID : String
deriving DecidableEq, Repr

/-- Go struct `User` (active occupant): ID, Name, CheckInTime, PCID
(0 = queued). -/
structure User where
  id : String
  name : String
  checkInTime : Nat
  pcid : Int
deriving DecidableEq, Repr

/-- Go struct `LogEntry` (event record of the daily bucket). The zero
`CheckOutTime` of an open record is modelled as `none`. -/
structure LogEntry where
  userName : String
  userID : String
  pcid : Int
  checkInTime : Nat
  checkOutTime : Option Nat
  usageTime : String
deriving DecidableEq, Repr

/-- The in-memory state the ledger operations touch: the globals
`allDevices`, `activeUsers` and the current day's log bucket. -/
structure LoungeState where
  allDevices : List Device
  activeUsers : List User
  dailyLog : List LogEntry
deriving DecidableEq, Repr

/-- Go `getUserByID`: first active user with the given id. -/
def getUserByID (users : List User) (id : String) : Option User :=
  users.find? (fun u => u.id == id)

/-- Go `getDeviceByID`: first device with the given id. -/
def getDeviceByID (devs : List Device) (id : Int) : Option Device :=
  devs.find? (fun d => d.id == id)

/-- Go `getDeviceByUserID`: first device whose `UserID` field equals the
given occupant id. -/
def getDeviceByUserID (devs : List Device) (id : String) : Option Device :=
  devs.find? (fun d => d.userID == id)

/-- Go `activeUserIDsOnDevice`: ids of active users whose `PCID` is the
given device id. -/
def activeUserIDsOnDevice (users : List User) (deviceID : Int) : List String :=
  (users.filter (fun u => u.pcid == deviceID)).map (fun u => u.id)

/-- Mutation through the pointer returned by `getDeviceByID`: rewrite the
first device with a matching id. -/
def updateDeviceByID : List Device → Int → (Device → Device) → List Device
  | [], _, _ => []
  | d :: ds, i, f => if d.id == i then f d :: ds else d :: updateDeviceByID ds i f

/-- Mutation through the pointer returned by `getUserByID`: rewrite the
first user with a matching id. -/
def updateUserByID : List User → String → (User → User) → List User
  | [], _, _ => []
  | u :: us, i, f => if u.id == i then f u :: us else u :: updateUserByID us i f

/-- Left-pad to two digits, the `%02d` of `fmt.Sprintf`. -/
def pad2 (n : Nat) : String :=
  if n < 10 then "0" ++ toString n else toString n

/-- Go `formatDuration` on a whole number of seconds: `%dh%02dm%02ds` when
hours > 0, else `%dm%02ds` when minutes > 0, else `%ds`. (The Go code first
rounds the `time.Duration` to a whole second; times are already whole
seconds in this model.) -/
def formatDuration (secs : Nat) : String :=
  let h := secs / 3600
  let m := (secs / 60) % 60
  let s := secs % 60
  if h > 0 then toString h ++ "h" ++ pad2 m ++ "m" ++ pad2 s ++ "s"
  else if m > 0 then toString m ++ "m" ++ pad2 s ++ "s"
  else toString s ++ "s"

/-- Go's reverse index loop `for i := len(entries)-1; i >= 0; i--` that
mutates the first match it meets and breaks: functionally, update the
LAST entry satisfying `p` (entries are appended in chronological order,
so the last match is the most recent). Returns the new list and the
`found` flag. -/
def updateLastWhere (p : LogEntry → Bool) (f : LogEntry → LogEntry) :
    List LogEntry → List LogEntry × Bool
  | [] => ([], false)
  | e :: rest =>
    let r := updateLastWhere p f rest
    if r.2 then (e :: r.1, true)
    else if p e then (f e :: rest, true)
    else (e :: rest, false)

/-- The match condition of `recordLogEvent`'s checkout branch:
`e.UserID == u.ID && e.PCID == deviceID && e.CheckOutTime.IsZero()` and,
when an original check-in time is supplied, `e.CheckInTime.Equal(*original)`. -/
def checkoutMatches (uid : String) (deviceID : Int) (original : Option Nat)
    (e : LogEntry) : Bool :=
  e.userID == uid && e.pcid == deviceID && e.checkOutTime == none &&
    (match original with
     | none => true
     | some t => e.checkInTime == t)

/-- The mutation `recordLogEvent` applies to the selected entry:
`CheckOutTime = now`, `UsageTime = formatDuration(now - checkInTime)`. -/
def closeEntry (now : Nat) (e : LogEntry) : LogEntry :=
  { e with checkOutTime := some now, usageTime := formatDuration (now - e.checkInTime) }

/-- The checkout branch of Go `recordLogEvent`: reverse-scan the bucket and
close the most recent matching open entry. -/
def recordCheckout (uid : String) (deviceID : Int) (original : Option Nat)
    (now : Nat) (entries : List LogEntry) : List LogEntry × Bool :=
  updateLastWhere (checkoutMatches uid deviceID original) (closeEntry now) entries

/-- The check-in branch of Go `recordLogEvent`: append a fresh open entry
built from the user and device id. -/
def checkinEntry (u : User) (deviceID : Int) : LogEntry :=
  { userName := u.name, userID := u.id, pcid := deviceID,
    checkInTime := u.checkInTime, checkOutTime := none, usageTime := "" }

/-- Outcome of `readDailyLogEntries`: either the parsed bucket, or a
failure (open/read/unmarshal error). A missing file parses as the empty
bucket, not as a failure. -/
inductive ReadResult where
  | ok : List LogEntry → ReadResult
  | failed : ReadResult
deriving DecidableEq, Repr

/-- Disk behaviour of Go `recordLogEvent`: `some bucket` means the function
reaches `writeDailyLogEntries` with that bucket, `none` means it returns
early and performs NO write. In the source, a failed `readDailyLogEntries`
prints the error and returns before any write. -/
def recordLogEventWrite (readResult : ReadResult) (isCheckIn : Bool) (u : User)
    (deviceID : Int) (original : Option Nat) (now : Nat) : Option (List LogEntry) :=
  match readResult with
  | .failed => none
  | .ok entries =>
    if isCheckIn then some (entries ++ [checkinEntry u deviceID])
    else some (recordCheckout u.id deviceID original now entries).1

/-- Go `updateCurrentLogEntriesCache`: a failed read refreshes the display
cache with the empty list. -/
def updateCurrentLogEntriesCache (readResult : ReadResult) : List LogEntry :=
  match readResult with
  | .ok entries => entries
  | .failed => []

/-- Error identities of the distinct `fmt.Errorf` return sites of
`registerUser`, `checkoutUser` and `assignQueuedUserToDevice`. -/
inductive LoungeError where
  | duplicateOccupant
  | unknownStation
  | stationBusy
  | notFound
  | alreadyAssigned
  | consistencyError
deriving DecidableEq, Repr

/-- Tail of Go `registerUser` common to all success paths: build the new
user, append it to `activeUsers`, and append the check-in record to the
day's bucket (`recordLogEvent(true, newUser, deviceID, nil)`). -/
def registerFinish (st : LoungeState) (name uid : String) (deviceID : Int)
    (now : Nat) : LoungeState × Option LoungeError :=
  let newUser : User := { id := uid, name := name, checkInTime := now, pcid := deviceID }
  ({ st with activeUsers := st.activeUsers ++ [newUser],
             dailyLog := st.dailyLog ++ [checkinEntry newUser deviceID] }, none)

/-- Go `registerUser` (check_in): duplicate check, then, for a nonzero
device id, station resolution, the PC busy check and the occupied marking
(a PC also records the occupant id), then the common success tail. -/
def registerUser (st : LoungeState) (name uid : String) (deviceID : Int)
    (now : Nat) : LoungeState × Option LoungeError :=
  if (getUserByID st.activeUsers uid).isSome then
    (st, some .duplicateOccupant)
  else if deviceID != 0 then
    match getDeviceByID st.allDevices deviceID with
    | none => (st, some .unknownStation)
    | some device =>
      if device.typ == "PC" then
        if device.status != "free" then (st, some .stationBusy)
        else
          let devs := updateDeviceByID st.allDevices deviceID
            (fun d => { d with status := "occupied", userID := uid })
          registerFinish { st with allDevices := devs } name uid deviceID now
      else
        let devs := updateDeviceByID st.allDevices deviceID
          (fun d => { d with status := "occupied" })
        registerFinish { st with allDevices := devs } name uid deviceID now
  else
    registerFinish st name uid deviceID now

/-- Go `checkoutUser` (check_out): find the occupant, remove it from
`activeUsers`, free a PC (clearing its `UserID`) or re-derive an auxiliary
station's status from the occupants remaining on it AFTER the removal,
then close the matching log record
(`recordLogEvent(false, *u, devID, &originalCheckIn)`). -/
def checkoutUser (st : LoungeState) (uid : String) (now : Nat) :
    LoungeState × Option LoungeError :=
  match getUserByID st.activeUsers uid with
  | none => (st, some .notFound)
  | some u =>
    match st.activeUsers.findIdx? (fun v => v.id == uid) with
    | none => (st, some .consistencyError)
    | some idx =>
      let users := st.activeUsers.eraseIdx idx
      let devs :=
        match getDeviceByID st.allDevices u.pcid with
        | none => st.allDevices
        | some dev =>
          if dev.typ == "PC" then
            updateDeviceByID st.allDevices u.pcid
              (fun d => { d with status := "free", userID := "" })
          else if (activeUserIDsOnDevice users dev.id).length == 0 then
            updateDeviceByID st.allDevices u.pcid (fun d => { d with status := "free" })
          else
            updateDeviceByID st.allDevices u.pcid (fun d => { d with status := "occupied" })
      ({ allDevices := devs, activeUsers := users,
         dailyLog := (recordCheckout uid u.pcid (some u.checkInTime) now st.dailyLog).1 },
       none)

/-- The match condition of `assignQueuedUserToDevice`'s log fix-up:
occupant id, open checkout, station 0, and check-in time equal to the
occupant's. -/
def assignMatches (uid : String) (original : Nat) (e : LogEntry) : Bool :=
  e.userID == uid && e.checkOutTime == none && e.pcid == 0 &&
    e.checkInTime == original

/-- Go `assignQueuedUserToDevice` (assign_queued): the occupant must exist
and be queued, the device must exist and be free; then the device is marked
occupied (a PC also records the occupant id), the occupant's `PCID` is set,
and the most recent matching open log record has its `PCID` rewritten from
0 to the device id. -/
def assignQueuedUserToDevice (st : LoungeState) (uid : String) (deviceID : Int) :
    LoungeState × Option LoungeError :=
  match getUserByID st.activeUsers uid with
  | none => (st, some .notFound)
  | some u =>
    if u.pcid != 0 then (st, some .alreadyAssigned)
    else
      match getDeviceByID st.allDevices deviceID with
      | none => (st, some .unknownStation)
      | some d =>
        if d.status != "free" then (st, some .stationBusy)
        else
          let devs :=
            if d.typ == "PC" then
              updateDeviceByID st.allDevices deviceID
                (fun x => { x with status := "occupied", userID := uid })
            else
              updateDeviceByID st.allDevices deviceID
                (fun x => { x with status := "occupied" })
          ({ allDevices := devs,
             activeUsers := updateUserByID st.activeUsers uid
               (fun v => { v with pcid := deviceID }),
             dailyLog := (updateLastWhere (assignMatches uid u.checkInTime)
               (fun e => { e with pcid := deviceID }) st.dailyLog).1 },
           none)

/-- Go `initData`'s fixed station pool: PCs 1..16, Consoles 17 and 18, all
free with empty `UserID`. -/
def initialDevices : List Device :=
  ((List.range 16).map (fun i =>
    { id := (i : Int) + 1, typ := "PC", status := "free", userID := "" }))
  ++ [{ id := 17, typ := "Console", status := "free", userID := "" },
      { id := 18, typ := "Console", status := "free", userID := "" }]

/-- One iteration of `initData`'s reload loop: the device carrying the
user's `PCID` is marked occupied and, only when it is a PC, records the
user's id. -/
def applyReload (devs : List Device) (u : User) : List Device :=
  updateDeviceByID devs u.pcid (fun d =>
    if d.typ == "PC" then { d with status := "occupied", userID := u.id }
    else { d with status := "occupied" })

/-- Go `initData`'s startup reload: rebuild the fixed pool, then mark the
devices of the persisted active users. -/
def initDevices (loadedUsers : List User) : List Device :=
  loadedUsers.foldl applyReload initialDevices

/-! Slot layout store (`DeviceStatusLayoutWidget`): the Go map
`deviceToSlot : map[int]int` is modelled as an association list with
unique keys; lookups take the first entry with a matching key, so on a
unique-key list they agree with the Go map. -/

/-- Association-list read of the Go map `deviceToSlot`. -/
def lookupSlot (m : List (Int × Nat)) (a : Int) : Option Nat :=
  (m.find? (fun p => p.1 == a)).map (fun p => p.2)

/-- Association-list write `deviceToSlot[a] = s`: replace the first entry
with key `a` in place, or append a new entry. -/
def setSlot : List (Int × Nat) → Int → Nat → List (Int × Nat)
  | [], a, s => [(a, s)]
  | p :: rest, a, s => if p.1 == a then (a, s) :: rest else p :: setSlot rest a s

/-- The `for id, s := range w.deviceToSlot` search of `DragEnd` for the
station currently owning a slot (under injectivity it is unique, so the
map's iteration order does not matter). -/
def findDeviceAtSlot (m : List (Int × Nat)) (s : Nat) : Option Int :=
  (m.find? (fun p => p.2 == s)).map (fun p => p.1)

/-- Go `defaultOrder`: the preferred station ordering used to synthesize
slot assignments. -/
def defaultOrder : List Int :=
  [16, 15, 14, 11, 12, 13, 10, 9, 8, 7, 6, 5, 1, 2, 3, 4, 17, 18]

/-- The station ids of the fixed pool (`allDevices` has ids 1..18;
`defaultOrder` is a permutation of them). -/
def deviceIds : List Int := defaultOrder

/-- Fuelled version of `ensureMapping`'s inner `for { if !occ[slot] ... }`
loop: first index `≥ s` not in `occ`. The fuel is only a termination
device; `firstFree` supplies enough of it for the scan to clear `occ`. -/
def firstFreeAux (occ : List Nat) : Nat → Nat → Nat
  | 0, s => s
  | fuel + 1, s => if s ∈ occ then firstFreeAux occ fuel (s + 1) else s

/-- An upper bound on the occupied slots. -/
def maxOcc (occ : List Nat) : Nat := occ.foldr max 0

/-- First free slot index at or above `s`: the unbounded Go scan, with
fuel that provably suffices. -/
def firstFree (occ : List Nat) (s : Nat) : Nat :=
  firstFreeAux occ (maxOcc occ + 1) s

/-- Accumulator of `ensureMapping`'s loop: the mapping, the occupied-slot
set `occ`, and the persistent `slot` counter. -/
structure EnsureState where
  m : List (Int × Nat)
  occ : List Nat
  slot : Nat

/-- One iteration of `ensureMapping`'s `for _, d := range order` loop: a
station already mapped (in `seen`) is skipped; otherwise it receives the
first free slot at or above the counter, which then moves past it. -/
def ensureStep (st : EnsureState) (d : Int) : EnsureState :=
  if (lookupSlot st.m d).isSome then st
  else
    let s := firstFree st.occ st.slot
    { m := setSlot st.m d s, occ := s :: st.occ, slot := s + 1 }

/-- Go `ensureMapping`: no-op when the map already has one entry per
device, else greedily assign the unmapped stations of `defaultOrder`
(`occ` starts as the set of slots already in use). -/
def ensureMapping (m : List (Int × Nat)) : List (Int × Nat) :=
  if m.length == defaultOrder.length then m
  else (defaultOrder.foldl ensureStep { m := m, occ := m.map (fun p => p.2), slot := 0 }).m

/-- The slot-swap core of Go `DragEnd` (with `w.deviceToSlot[dragged]`
returning the map's zero value 0 when the key is absent): no-op when the
dragged station already owns the target slot, otherwise the dragged
station takes the target slot and the station previously owning it, if
any, takes the dragged station's old slot. -/
def swapSlot (m : List (Int × Nat)) (a : Int) (target : Nat) : List (Int × Nat) :=
  let current := (lookupSlot m a).getD 0
  if current != target then
    match findDeviceAtSlot m target with
    | some b => setSlot (setSlot m a target) b current
    | none => setSlot m a target
  else m

/-- Go `loadDeviceLayout`: a missing/corrupt file synthesizes the mapping
from scratch; a parsed entry list is folded into the map in file order
(later duplicates overwrite) and then completed by `ensureMapping`. -/
def loadLayout (entries : Option (List (Int × Nat))) : List (Int × Nat) :=
  match entries with
  | none => ensureMapping []
  | some es => ensureMapping (es.foldl (fun m p => setSlot m p.1 p.2) [])

/-- Injectivity of the slot mapping, read through `lookupSlot`: no two
stations share a slot. -/
def SlotInj (m : List (Int × Nat)) : Prop :=
  ∀ x y sx sy, lookupSlot m x = some sx → lookupSlot m y = some sy →
    x ≠ y → sx ≠ sy

/-- The slot-store invariant of the spec: the association list faithfully
models a map (unique keys), the mapping is injective, and no station of
the pool is unmapped. -/
def SlotInv (m : List (Int × Nat)) : Prop :=
  (m.map Prod.fst).Nodup ∧ SlotInj m ∧ ∀ d ∈ deviceIds, (lookupSlot m d).isSome

/-- The slot-store states reachable by the widget: the synthesized fresh
mapping, reloading a previously saved mapping (Go serializes the map in
arbitrary iteration order, hence the permutation), `ensureMapping`, and a
`DragEnd` swap of a station of the pool. -/
inductive LayoutReachable : List (Int × Nat) → Prop
  | fresh : LayoutReachable (loadLayout none)
  | loadSaved (m es : List (Int × Nat)) : LayoutReachable m → es.Perm m →
      LayoutReachable (loadLayout (some es))
  | ensure (m : List (Int × Nat)) : LayoutReachable m →
      LayoutReachable (ensureMapping m)
  | swap (m : List (Int × Nat)) (a : Int) (t : Nat) : LayoutReachable m →
      a ∈ deviceIds → LayoutReachable (swapSlot m a t)

/-- Squared Euclidean distance `dx*dx + dy*dy` of `nearestSlot`, on exact
coordinates. -/
def sqDist (a b : ℚ × ℚ) : ℚ :=
  (a.1 - b.1) * (a.1 - b.1) + (a.2 - b.2) * (a.2 - b.2)

/-- The loop of Go `nearestSlot`: scan positions left to right, keeping
the first strictly smaller distance; `none` models the initial
`best = -1, bestDist = math.MaxFloat64` state, which any scanned position
beats. -/
def nearestSlotAux (p : ℚ × ℚ) : List (ℚ × ℚ) → Nat → Option (Nat × ℚ) → Option (Nat × ℚ)
  | [], _, best => best
  | q :: rest, i, best =>
    let d := sqDist q p
    match best with
    | none => nearestSlotAux p rest (i + 1) (some (i, d))
    | some (bi, bd) =>
      if d < bd then nearestSlotAux p rest (i + 1) (some (i, d))
      else nearestSlotAux p rest (i + 1) (some (bi, bd))

/-- Go `nearestSlot`: `-1` (here `none`) for an empty position list, else
the index of the position closest (in squared distance) to `p`. -/
def nearestSlot (ps : List (ℚ × ℚ)) (p : ℚ × ℚ) : Option Nat :=
  if ps.isEmpty then none
  else (nearestSlotAux p ps 0 none).map (fun r => r.1)

/-- Consoles never carry an occupant id in their `UserID` field. -/
def consolesClean (devs : List Device) : Prop :=
  ∀ d ∈ devs, d.typ = "Console" → d.userID = ""

instance consolesCleanDecidable (devs : List Device) : Decidable (consolesClean devs) :=
  List.decidableBAll _ devs

/-! Structural lemmas about the find-first / update-first pairs. -/

lemma getDeviceByID_mem {devs : List Device} {i : Int} {d : Device}
    (h : getDeviceByID devs i = some d) : d ∈ devs :=
  List.mem_of_find?_eq_some h

lemma getDeviceByID_id {devs : List Device} {i : Int} {d : Device}
    (h : getDeviceByID devs i = some d) : d.id = i := by
  have := List.find?_some h
  simpa using this

lemma updateDeviceByID_of_none {devs : List Device} {i : Int}
    (h : getDeviceByID devs i = none) (f : Device → Device) :
    updateDeviceByID devs i f = devs := by
  induction devs with
  | nil => rfl
  | cons x ds ih =>
    by_cases hx : (x.id == i) = true
    · exact absurd h (by simp [getDeviceByID, List.find?, hx])
    · have hx' : (x.id == i) = false := by simpa using hx
      have hds : getDeviceByID ds i = none := by
        simpa [getDeviceByID, List.find?, hx'] using h
      simp [updateDeviceByID, hx', ih hds]

lemma getDeviceByID_decomp {devs : List Device} {i : Int} {d : Device}
    (h : getDeviceByID devs i = some d) :
    ∃ pre post, devs = pre ++ d :: post ∧ (∀ x ∈ pre, (x.id == i) = false) ∧
      ∀ f, updateDeviceByID devs i f = pre ++ f d :: post := by
  induction devs with
  | nil => simp [getDeviceByID] at h
  | cons x ds ih =>
    by_cases hx : (x.id == i) = true
    · have hd : d = x := by
        have := h
        simp [getDeviceByID, List.find?, hx] at this
        exact this.symm
      refine ⟨[], ds, by simp [hd], by simp, ?_⟩
      intro f
      simp [updateDeviceByID, hx, hd]
    · have hx' : (x.id == i) = false := by simpa using hx
      have hds : getDeviceByID ds i = some d := by
        simpa [getDeviceByID, List.find?, hx'] using h
      obtain ⟨pre, post, hsplit, hpre, hupd⟩ := ih hds
      refine ⟨x :: pre, post, by simp [hsplit], ?_, ?_⟩
      · intro y hy
        rcases List.mem_cons.mp hy with hy | hy
        · simpa [hy] using hx'
        · exact hpre y hy
      · intro f
        simp [updateDeviceByID, hx', hupd f]

lemma getDeviceByID_append_first {pre post : List Device} {i : Int} {y : Device}
    (hpre : ∀ x ∈ pre, (x.id == i) = false) (hy : y.id = i) :
    getDeviceByID (pre ++ y :: post) i = some y := by
  induction pre with
  | nil => simp [getDeviceByID, List.find?, hy]
  | cons x ds ih =>
    have hx := hpre x (by simp)
    have hrest : ∀ z ∈ ds, (z.id == i) = false := fun z hz => hpre z (by simp [hz])
    simpa [getDeviceByID, List.find?, hx] using ih hrest

lemma getUserByID_mem {users : List User} {uid : String} {u : User}
    (h : getUserByID users uid = some u) : u ∈ users :=
  List.mem_of_find?_eq_some h

lemma getUserByID_id {users : List User} {uid : String} {u : User}
    (h : getUserByID users uid = some u) : u.id = uid := by
  have := List.find?_some h
  simpa using this

lemma getUserByID_decomp {users : List User} {uid : String} {u : User}
    (h : getUserByID users uid = some u) :
    ∃ pre post, users = pre ++ u :: post ∧ (∀ v ∈ pre, (v.id == uid) = false) ∧
      (users.findIdx? (fun v => v.id == uid) = some pre.length) ∧
      ∀ f, updateUserByID users uid f = pre ++ f u :: post := by
  induction users with
  | nil => simp [getUserByID] at h
  | cons x us ih =>
    by_cases hx : (x.id == uid) = true
    · have hd : u = x := by
        have := h
        simp [getUserByID, List.find?, hx] at this
        exact this.symm
      refine ⟨[], us, by simp [hd], by simp, ?_, ?_⟩
      · simp [List.findIdx?_cons, hx]
      · intro f
        simp [updateUserByID, hx, hd]
    · have hx' : (x.id == uid) = false := by simpa using hx
      have hus : getUserByID us uid = some u := by
        simpa [getUserByID, List.find?, hx'] using h
      obtain ⟨pre, post, hsplit, hpre, hidx, hupd⟩ := ih hus
      refine ⟨x :: pre, post, by simp [hsplit], ?_, ?_, ?_⟩
      · intro y hy
        rcases List.mem_cons.mp hy with hy | hy
        · simpa [hy] using hx'
        · exact hpre y hy
      · simp [List.findIdx?_cons, hx', hidx]
      · intro f
        simp [updateUserByID, hx', hupd f]

lemma getUserByID_append_first {pre post : List User} {uid : String} {y : User}
    (hpre : ∀ v ∈ pre, (v.id == uid) = false) (hy : y.id = uid) :
    getUserByID (pre ++ y :: post) uid = some y := by
  induction pre with
  | nil => simp [getUserByID, List.find?, hy]
  | cons x ds ih =>
    have hx := hpre x (by simp)
    have hrest : ∀ z ∈ ds, (z.id == uid) = false := fun z hz => hpre z (by simp [hz])
    simpa [getUserByID, List.find?, hx] using ih hrest

lemma eraseIdx_append_cons (pre : List User) (u : User) (post : List User) :
    (pre ++ u :: post).eraseIdx pre.length = pre ++ post := by
  induction pre with
  | nil => rfl
  | cons x ds ih => simp [List.eraseIdx, ih]

/-- The startup state: the fixed pool, nobody checked in, empty bucket.
Used as concrete input by the witnesses. -/
def st0 : LoungeState := { allDevices := initialDevices, activeUsers := [], dailyLog := [] }

/-- Claim C1: `check_in(name, occupant_id, station_id)` fails
`DuplicateOccupant` when the occupant id is already active; with
`station_id = 0` the occupant is appended as queued with no station side
effects; with a nonzero `station_id` it fails `UnknownStation` when no
station has that id, fails `StationBusy` for a primary (PC) station that
is not free, and always succeeds for an auxiliary (Console) station; on
success the station is marked occupied (a PC also records the occupant
id) and the occupant is appended to the active list. -/
theorem registerUser_spec (st : LoungeState) (name uid : String) (deviceID : Int)
    (now : Nat) :
    ((getUserByID st.activeUsers uid).isSome →
      registerUser st name uid deviceID now = (st, some LoungeError.duplicateOccupant)) ∧
    (getUserByID st.activeUsers uid = none → deviceID = 0 →
      (registerUser st name uid deviceID now).2 = none ∧
      (registerUser st name uid deviceID now).1.allDevices = st.allDevices ∧
      (registerUser st name uid deviceID now).1.activeUsers =
        st.activeUsers ++ [{ id := uid, name := name, checkInTime := now, pcid := 0 }]) ∧
    (getUserByID st.activeUsers uid = none → deviceID ≠ 0 →
      getDeviceByID st.allDevices deviceID = none →
      registerUser st name uid deviceID now = (st, some LoungeError.unknownStation)) ∧
    (∀ d, getUserByID st.activeUsers uid = none → deviceID ≠ 0 →
      getDeviceByID st.allDevices deviceID = some d → d.typ = "PC" → d.status ≠ "free" →
      registerUser st name uid deviceID now = (st, some LoungeError.stationBusy)) ∧
    (∀ d, getUserByID st.activeUsers uid = none → deviceID ≠ 0 →
      getDeviceByID st.allDevices deviceID = some d → d.typ = "PC" → d.status = "free" →
      (registerUser st name uid deviceID now).2 = none ∧
      (registerUser st name uid deviceID now).1.activeUsers =
        st.activeUsers ++ [{ id := uid, name := name, checkInTime := now, pcid := deviceID }] ∧
      getDeviceByID (registerUser st name uid deviceID now).1.allDevices deviceID =
        some { d with status := "occupied", userID := uid }) ∧
    (∀ d, getUserByID st.activeUsers uid = none → deviceID ≠ 0 →
      getDeviceByID st.allDevices deviceID = some d → d.typ = "Console" →
      (registerUser st name uid deviceID now).2 = none ∧
      (registerUser st name uid deviceID now).1.activeUsers =
        st.activeUsers ++ [{ id := uid, name := name, checkInTime := now, pcid := deviceID }] ∧
      getDeviceByID (registerUser st name uid deviceID now).1.allDevices deviceID =
        some { d with status := "occupied" }) := by
  refine ⟨?_, ?_, ?_, ?_, ?_, ?_⟩
  · intro h
    simp [registerUser, h]
  · intro hnone h0
    subst h0
    simp [registerUser, hnone, registerFinish]
  · intro hnone hne hdev
    simp [registerUser, hnone, hne, hdev, bne_iff_ne]
  · intro d hnone hne hdev htyp hst
    simp [registerUser, hnone, hne, hdev, htyp, hst, bne_iff_ne]
  · intro d hnone hne hdev htyp hfree
    have hid := getDeviceByID_id hdev
    obtain ⟨pre, post, hsplit, hpre, hupd⟩ := getDeviceByID_decomp hdev
    have hbranch : registerUser st name uid deviceID now =
        registerFinish { st with allDevices :=
          pre ++ ({ d with status := "occupied", userID := uid }) :: post }
          name uid deviceID now := by
      simp [registerUser, hnone, hne, hdev, htyp, hfree, bne_iff_ne, hupd]
    rw [hbranch]
    refine ⟨rfl, rfl, ?_⟩
    exact getDeviceByID_append_first hpre hid
  · intro d hnone hne hdev htyp
    have hid := getDeviceByID_id hdev
    obtain ⟨pre, post, hsplit, hpre, hupd⟩ := getDeviceByID_decomp hdev
    have htyp' : (d.typ == "PC") = false := by
      simp [htyp]
    have hbranch : registerUser st name uid deviceID now =
        registerFinish { st with allDevices :=
          pre ++ ({ d with status := "occupied" }) :: post }
          name uid deviceID now := by
      simp [registerUser, hnone, hne, hdev, htyp', bne_iff_ne, hupd]
    rw [hbranch]
    refine ⟨rfl, rfl, ?_⟩
    exact getDeviceByID_append_first hpre hid

/-- Concrete exercise of `registerUser_spec`: on the startup state, a
check-in of "Alice" on free PC 5 succeeds and marks the PC; a console
check-in on 17 succeeds; device 99 is unknown; a second user on PC 5 is
busy; a duplicate of "Alice" is rejected; a queued check-in leaves the
pool alone. -/
theorem registerUser_spec_witness :
    ((registerUser st0 "Alice" "1001" 5 10).2 = none ∧
      getDeviceByID (registerUser st0 "Alice" "1001" 5 10).1.allDevices 5 =
        some { id := 5, typ := "PC", status := "occupied", userID := "1001" }) ∧
    registerUser st0 "Bob" "1002" 99 20 = (st0, some LoungeError.unknownStation) ∧
    registerUser (registerUser st0 "Alice" "1001" 5 10).1 "Bob" "1002" 5 20 =
      ((registerUser st0 "Alice" "1001" 5 10).1, some LoungeError.stationBusy) ∧
    registerUser (registerUser st0 "Alice" "1001" 5 10).1 "Alice" "1001" 0 30 =
      ((registerUser st0 "Alice" "1001" 5 10).1, some LoungeError.duplicateOccupant) ∧
    ((registerUser st0 "Eve" "1003" 17 40).2 = none ∧
      getDeviceByID (registerUser st0 "Eve" "1003" 17 40).1.allDevices 17 =
        some { id := 17, typ := "Console", status := "occupied", userID := "" }) ∧
    ((registerUser st0 "Carl" "2001" 0 10).2 = none ∧
      (registerUser st0 "Carl" "2001" 0 10).1.allDevices = st0.allDevices) := by
  refine ⟨⟨?_, ?_⟩, ?_, ?_, ?_, ⟨?_, ?_⟩, ⟨?_, ?_⟩⟩
  · exact ((registerUser_spec st0 "Alice" "1001" 5 10).2.2.2.2.1
      { id := 5, typ := "PC", status := "free", userID := "" }
      (by rfl) (by decide) (by rfl) (by rfl) (by rfl)).1
  · exact ((registerUser_spec st0 "Alice" "1001" 5 10).2.2.2.2.1
      { id := 5, typ := "PC", status := "free", userID := "" }
      (by rfl) (by decide) (by rfl) (by rfl) (by rfl)).2.2
  · exact (registerUser_spec st0 "Bob" "1002" 99 20).2.2.1 (by rfl) (by decide) (by rfl)
  · exact (registerUser_spec (registerUser st0 "Alice" "1001" 5 10).1
      "Bob" "1002" 5 20).2.2.2.1
      { id := 5, typ := "PC", status := "occupied", userID := "1001" }
      (by rfl) (by decide) (by rfl) (by rfl) (by decide)
  · exact (registerUser_spec (registerUser st0 "Alice" "1001" 5 10).1
      "Alice" "1001" 0 30).1 (by rfl)
  · exact ((registerUser_spec st0 "Eve" "1003" 17 40).2.2.2.2.2
      { id := 17, typ := "Console", status := "free", userID := "" }
      (by rfl) (by decide) (by rfl) (by rfl)).1
  · exact ((registerUser_spec st0 "Eve" "1003" 17 40).2.2.2.2.2
      { id := 17, typ := "Console", status := "free", userID := "" }
      (by rfl) (by decide) (by rfl) (by rfl)).2.2
  · exact ((registerUser_spec st0 "Carl" "2001" 0 10).2.1 (by rfl) (by rfl)).1
  · exact ((registerUser_spec st0 "Carl" "2001" 0 10).2.1 (by rfl) (by rfl)).2.1

/-- Claim C5: whenever `check_in`, `check_out` or `assign_queued` returns
an error (`StationBusy`, `DuplicateOccupant`, `NotFound`,
`UnknownStation`, occupant-already-assigned), the returned state is the
input state unchanged: active occupant list, every station's status and
occupant field, and the event log. -/
theorem conflict_error_no_mutation (st st' : LoungeState) (name uid : String)
    (deviceID : Int) (now : Nat) (e : LoungeError) :
    (registerUser st name uid deviceID now = (st', some e) → st' = st) ∧
    (checkoutUser st uid now = (st', some e) → st' = st) ∧
    (assignQueuedUserToDevice st uid deviceID = (st', some e) → st' = st) := by
  refine ⟨?_, ?_, ?_⟩ <;> intro h
  · unfold registerUser registerFinish at h
    repeat' split at h
    all_goals
      injection h with h1 h2
    all_goals
      first
        | exact Option.noConfusion h2
        | exact h1.symm
  · unfold checkoutUser at h
    repeat' split at h
    all_goals
      injection h with h1 h2
    all_goals
      first
        | exact Option.noConfusion h2
        | exact h1.symm
  · unfold assignQueuedUserToDevice at h
    repeat' split at h
    all_goals
      injection h with h1 h2
    all_goals
      first
        | exact Option.noConfusion h2
        | exact h1.symm

/-- Concrete exercise of `conflict_error_no_mutation`: the `StationBusy`
rejection of "Bob", the `NotFound` rejection of an unknown checkout, and
the occupant-already-assigned rejection all leave the state untouched. -/
theorem conflict_error_no_mutation_witness :
    (registerUser (registerUser st0 "Alice" "1001" 5 10).1 "Bob" "1002" 5 20).1 =
      (registerUser st0 "Alice" "1001" 5 10).1 ∧
    (checkoutUser st0 "9999" 50).1 = st0 ∧
    (assignQueuedUserToDevice (registerUser st0 "Alice" "1001" 5 10).1 "1001" 7).1 =
      (registerUser st0 "Alice" "1001" 5 10).1 := by
  refine ⟨?_, ?_, ?_⟩
  · exact (conflict_error_no_mutation (registerUser st0 "Alice" "1001" 5 10).1
      (registerUser (registerUser st0 "Alice" "1001" 5 10).1 "Bob" "1002" 5 20).1
      "Bob" "1002" 5 20 LoungeError.stationBusy).1 (by rfl)
  · exact (conflict_error_no_mutation st0 (checkoutUser st0 "9999" 50).1
      "x" "9999" 0 50 LoungeError.notFound).2.1 (by rfl)
  · exact (conflict_error_no_mutation (registerUser st0 "Alice" "1001" 5 10).1
      (assignQueuedUserToDevice (registerUser st0 "Alice" "1001" 5 10).1 "1001" 7).1
      "x" "1001" 7 50 LoungeError.alreadyAssigned).2.2 (by rfl)

/-- Claim C2: `check_out(occupant_id)` fails `NotFound` when no active
occupant has that id; otherwise it removes the occupant from the active
list, frees a primary (PC) station, and leaves an auxiliary (Console)
station occupied if and only if other occupants remain on it. -/
theorem checkoutUser_spec (st : LoungeState) (uid : String) (now : Nat) :
    (getUserByID st.activeUsers uid = none →
      checkoutUser st uid now = (st, some LoungeError.notFound)) ∧
    (∀ u, getUserByID st.activeUsers uid = some u →
      (checkoutUser st uid now).2 = none ∧
      (∃ pre post, st.activeUsers = pre ++ u :: post ∧
        (∀ v ∈ pre, v.id ≠ uid) ∧
        (checkoutUser st uid now).1.activeUsers = pre ++ post) ∧
      (∀ dev, getDeviceByID st.allDevices u.pcid = some dev → dev.typ = "PC" →
        getDeviceByID (checkoutUser st uid now).1.allDevices u.pcid =
          some { dev with status := "free", userID := "" }) ∧
      (∀ dev, getDeviceByID st.allDevices u.pcid = some dev → dev.typ = "Console" →
        ∃ dev', getDeviceByID (checkoutUser st uid now).1.allDevices u.pcid = some dev' ∧
          dev'.typ = "Console" ∧ dev'.id = dev.id ∧ dev'.userID = dev.userID ∧
          (dev'.status = "occupied" ↔
            activeUserIDsOnDevice (checkoutUser st uid now).1.activeUsers dev.id ≠ []) ∧
          (dev'.status = "free" ↔
            activeUserIDsOnDevice (checkoutUser st uid now).1.activeUsers dev.id = []))) := by
  constructor
  · intro h
    simp [checkoutUser, h]
  · intro u hu
    obtain ⟨pre, post, hsplit, hpre, hidx, _⟩ := getUserByID_decomp hu
    have husers : st.activeUsers.eraseIdx pre.length = pre ++ post := by
      rw [hsplit]
      exact eraseIdx_append_cons pre u post
    have hactive : (checkoutUser st uid now).1.activeUsers = pre ++ post := by
      simp only [checkoutUser, hu, hidx, husers]
    refine ⟨?_, ⟨pre, post, hsplit, ?_, hactive⟩, ?_, ?_⟩
    · simp only [checkoutUser, hu, hidx]
    · intro v hv
      simpa using hpre v hv
    · intro dev hdev htyp
      have hdid := getDeviceByID_id hdev
      obtain ⟨dpre, dpost, hdsplit, hdpre, hdupd⟩ := getDeviceByID_decomp hdev
      have hdevs : (checkoutUser st uid now).1.allDevices =
          dpre ++ ({ dev with status := "free", userID := "" }) :: dpost := by
        simp [checkoutUser, hu, hidx, hdev, htyp, hdupd]
      rw [hdevs]
      exact getDeviceByID_append_first hdpre hdid
    · intro dev hdev htyp
      have hdid := getDeviceByID_id hdev
      have htyp' : (dev.typ == "PC") = false := by
        simp [htyp]
      obtain ⟨dpre, dpost, hdsplit, hdpre, hdupd⟩ := getDeviceByID_decomp hdev
      by_cases hrem : activeUserIDsOnDevice (pre ++ post) dev.id = []
      · refine ⟨{ dev with status := "free" }, ?_, htyp, rfl, rfl, ?_, ?_⟩
        · have hdevs : (checkoutUser st uid now).1.allDevices =
              dpre ++ ({ dev with status := "free" }) :: dpost := by
            simp [checkoutUser, hu, hidx, hdev, htyp', hdupd, husers, hrem]
          rw [hdevs]
          exact getDeviceByID_append_first hdpre hdid
        · rw [hactive]
          simp [hrem]
        · rw [hactive]
          simp [hrem]
      · refine ⟨{ dev with status := "occupied" }, ?_, htyp, rfl, rfl, ?_, ?_⟩
        · have hlen : ((activeUserIDsOnDevice (pre ++ post) dev.id).length == 0) = false := by
            simpa [List.length_eq_zero] using hrem
          have hdevs : (checkoutUser st uid now).1.allDevices =
              dpre ++ ({ dev with status := "occupied" }) :: dpost := by
            simp [checkoutUser, hu, hidx, hdev, htyp', hdupd, husers, hlen]
          rw [hdevs]
          exact getDeviceByID_append_first hdpre hdid
        · rw [hactive]
          simp [hrem]
        · rw [hactive]
          simp [hrem]

/-- Concrete exercise of `checkoutUser_spec` (Scenario B plus the console
branch): an unknown id is `NotFound`; checking Alice out of PC 5 frees it;
with two console occupants, checking one out leaves console 17 occupied. -/
theorem checkoutUser_spec_witness :
    checkoutUser st0 "9998" 50 = (st0, some LoungeError.notFound) ∧
    (checkoutUser (registerUser st0 "Alice" "1001" 5 10).1 "1001" 70).2 = none ∧
    getDeviceByID
      (checkoutUser (registerUser st0 "Alice" "1001" 5 10).1 "1001" 70).1.allDevices 5 =
      some { id := 5, typ := "PC", status := "free", userID := "" } ∧
    ¬ (activeUserIDsOnDevice
        (checkoutUser (registerUser (registerUser st0 "Eve" "1003" 17 40).1
          "Dan" "1004" 17 41).1 "1003" 60).1.activeUsers 17 = []) := by
  refine ⟨?_, ?_, ?_, ?_⟩
  · exact (checkoutUser_spec st0 "9998" 50).1 (by rfl)
  · exact ((checkoutUser_spec (registerUser st0 "Alice" "1001" 5 10).1 "1001" 70).2
      ⟨"1001", "Alice", 10, 5⟩ (by rfl)).1
  · exact ((checkoutUser_spec (registerUser st0 "Alice" "1001" 5 10).1 "1001" 70).2
      ⟨"1001", "Alice", 10, 5⟩ (by rfl)).2.2.1
      { id := 5, typ := "PC", status := "occupied", userID := "1001" } (by rfl) (by rfl)
  · obtain ⟨dev', hfind, _, _, _, hocc, _⟩ :=
      ((checkoutUser_spec (registerUser (registerUser st0 "Eve" "1003" 17 40).1
        "Dan" "1004" 17 41).1 "1003" 60).2 ⟨"1003", "Eve", 40, 17⟩ (by rfl)).2.2.2
      { id := 17, typ := "Console", status := "occupied", userID := "" } (by rfl) (by rfl)
    apply hocc.mp
    have : dev' = { id := 17, typ := "Console", status := "occupied", userID := "" } := by
      have hfind2 : getDeviceByID
          (checkoutUser (registerUser (registerUser st0 "Eve" "1003" 17 40).1
            "Dan" "1004" 17 41).1 "1003" 60).1.allDevices 17 =
          some { id := 17, typ := "Console", status := "occupied", userID := "" } := by rfl
      have := hfind.symm.trans hfind2
      exact (Option.some.injEq _ _).mp this
    rw [this]

lemma updateLastWhere_no_match (p : LogEntry → Bool) (f : LogEntry → LogEntry) :
    ∀ l : List LogEntry, (∀ e ∈ l, p e = false) → updateLastWhere p f l = (l, false) := by
  intro l h
  induction l with
  | nil => rfl
  | cons e rest ih =>
    have hrest := ih (fun x hx => h x (by simp [hx]))
    have he := h e (by simp)
    simp [updateLastWhere, hrest, he]

lemma updateLastWhere_last (p : LogEntry → Bool) (f : LogEntry → LogEntry)
    (pre : List LogEntry) (e : LogEntry) (post : List LogEntry)
    (he : p e = true) (hpost : ∀ x ∈ post, p x = false) :
    updateLastWhere p f (pre ++ e :: post) = (pre ++ f e :: post, true) := by
  induction pre with
  | nil =>
    have hrest := updateLastWhere_no_match p f post hpost
    simp [updateLastWhere, hrest, he]
  | cons a pre ih =>
    simp [updateLastWhere, ih]

lemma updateLastWhere_filter_length (p : LogEntry → Bool) (f : LogEntry → LogEntry)
    (q : LogEntry → Bool) (hq : ∀ e, q (f e) = q e) :
    ∀ l : List LogEntry,
      ((updateLastWhere p f l).1.filter q).length = (l.filter q).length := by
  intro l
  induction l with
  | nil => rfl
  | cons e rest ih =>
    by_cases hr : (updateLastWhere p f rest).2 = true
    · have : updateLastWhere p f (e :: rest) = (e :: (updateLastWhere p f rest).1, true) := by
        simp [updateLastWhere, hr]
      rw [this]
      cases hqe : q e <;> simp [List.filter, hqe, ih]
    · have hr' : (updateLastWhere p f rest).2 = false := by
        simpa using hr
      by_cases hp : p e = true
      · have : updateLastWhere p f (e :: rest) = (f e :: rest, true) := by
          simp [updateLastWhere, hr', hp]
        rw [this]
        cases hqe : q e <;> simp [List.filter, hq e, hqe]
      · have hp' : p e = false := by
          simpa using hp
        have : updateLastWhere p f (e :: rest) = (e :: rest, false) := by
          simp [updateLastWhere, hr', hp']
        rw [this]

/-- Claim C3: `assign_queued(occupant_id, station_id)` fails when the
occupant is missing or not queued, or the target station is unknown or
not free; otherwise it moves the occupant onto the station and rewrites
the occupant's open EventRecord's station id from 0 to the target id,
selecting the most recent record matching occupant id, station 0, open
checkout and equal check-in time, and neither adds nor removes records,
so the occupant still has exactly as many EventRecords as before. -/
theorem assignQueued_spec (st : LoungeState) (uid : String) (deviceID : Int) :
    (getUserByID st.activeUsers uid = none →
      assignQueuedUserToDevice st uid deviceID = (st, some LoungeError.notFound)) ∧
    (∀ u, getUserByID st.activeUsers uid = some u → u.pcid ≠ 0 →
      assignQueuedUserToDevice st uid deviceID = (st, some LoungeError.alreadyAssigned)) ∧
    (∀ u, getUserByID st.activeUsers uid = some u → u.pcid = 0 →
      getDeviceByID st.allDevices deviceID = none →
      assignQueuedUserToDevice st uid deviceID = (st, some LoungeError.unknownStation)) ∧
    (∀ u d, getUserByID st.activeUsers uid = some u → u.pcid = 0 →
      getDeviceByID st.allDevices deviceID = some d → d.status ≠ "free" →
      assignQueuedUserToDevice st uid deviceID = (st, some LoungeError.stationBusy)) ∧
    (∀ u d, getUserByID st.activeUsers uid = some u → u.pcid = 0 →
      getDeviceByID st.allDevices deviceID = some d → d.status = "free" →
      (assignQueuedUserToDevice st uid deviceID).2 = none ∧
      getUserByID (assignQueuedUserToDevice st uid deviceID).1.activeUsers uid =
        some { u with pcid := deviceID } ∧
      getDeviceByID (assignQueuedUserToDevice st uid deviceID).1.allDevices deviceID =
        some (if d.typ = "PC" then { d with status := "occupied", userID := uid }
              else { d with status := "occupied" }) ∧
      ((∀ e ∈ st.dailyLog, assignMatches uid u.checkInTime e = false) →
        (assignQueuedUserToDevice st uid deviceID).1.dailyLog = st.dailyLog) ∧
      (∀ pre e post, st.dailyLog = pre ++ e :: post →
        assignMatches uid u.checkInTime e = true →
        (∀ x ∈ post, assignMatches uid u.checkInTime x = false) →
        (assignQueuedUserToDevice st uid deviceID).1.dailyLog =
          pre ++ ({ e with pcid := deviceID }) :: post) ∧
      (∀ q : String,
        (((assignQueuedUserToDevice st uid deviceID).1.dailyLog).filter
          (fun e => e.userID == q)).length =
        ((st.dailyLog).filter (fun e => e.userID == q)).length)) := by
  refine ⟨?_, ?_, ?_, ?_, ?_⟩
  · intro h
    simp [assignQueuedUserToDevice, h]
  · intro u hu hpc
    simp [assignQueuedUserToDevice, hu, hpc, bne_iff_ne]
  · intro u hu hpc hdev
    simp [assignQueuedUserToDevice, hu, hpc, hdev]
  · intro u d hu hpc hdev hbusy
    simp [assignQueuedUserToDevice, hu, hpc, hdev, hbusy, bne_iff_ne]
  · intro u d hu hpc hdev hfree
    have hlog : (assignQueuedUserToDevice st uid deviceID).1.dailyLog =
        (updateLastWhere (assignMatches uid u.checkInTime)
          (fun e => { e with pcid := deviceID }) st.dailyLog).1 := by
      simp [assignQueuedUserToDevice, hu, hpc, hdev, hfree]
    refine ⟨?_, ?_, ?_, ?_, ?_, ?_⟩
    · simp [assignQueuedUserToDevice, hu, hpc, hdev, hfree]
    · obtain ⟨pre, post, hsplit, hpre, _, hupd⟩ := getUserByID_decomp hu
      have huid := getUserByID_id hu
      have husers : (assignQueuedUserToDevice st uid deviceID).1.activeUsers =
          pre ++ ({ u with pcid := deviceID }) :: post := by
        simp [assignQueuedUserToDevice, hu, hpc, hdev, hfree, hupd]
      rw [husers]
      exact getUserByID_append_first hpre huid
    · have hdid := getDeviceByID_id hdev
      obtain ⟨dpre, dpost, hdsplit, hdpre, hdupd⟩ := getDeviceByID_decomp hdev
      by_cases htyp : d.typ = "PC"
      · have hdevs : (assignQueuedUserToDevice st uid deviceID).1.allDevices =
            dpre ++ ({ d with status := "occupied", userID := uid }) :: dpost := by
          simp [assignQueuedUserToDevice, hu, hpc, hdev, hfree, htyp, hdupd]
        rw [hdevs, if_pos htyp]
        exact getDeviceByID_append_first hdpre hdid
      · have htyp' : (d.typ == "PC") = false := by
          simpa using htyp
        have hdevs : (assignQueuedUserToDevice st uid deviceID).1.allDevices =
            dpre ++ ({ d with status := "occupied" }) :: dpost := by
          simp [assignQueuedUserToDevice, hu, hpc, hdev, hfree, htyp', hdupd]
        rw [hdevs, if_neg htyp]
        exact getDeviceByID_append_first hdpre hdid
    · intro hnom
      rw [hlog, updateLastWhere_no_match _ _ _ hnom]
    · intro pre e post hsplit he hpost
      rw [hlog, hsplit, updateLastWhere_last _ _ _ _ _ he hpost]
    · intro q
      rw [hlog]
      exact updateLastWhere_filter_length (assignMatches uid u.checkInTime)
        (fun e => { e with pcid := deviceID }) (fun e => e.userID == q)
        (fun e => rfl) st.dailyLog

/-- Concrete exercise of `assignQueued_spec` (Scenario C): Carl checks in
queued, is assigned to PC 7, ends with `pcid = 7`, and still has exactly
one EventRecord, now carrying station 7; assigning him again fails. -/
theorem assignQueued_spec_witness :
    (assignQueuedUserToDevice (registerUser st0 "Carl" "2001" 0 10).1 "2001" 7).2 = none ∧
    getUserByID (assignQueuedUserToDevice
      (registerUser st0 "Carl" "2001" 0 10).1 "2001" 7).1.activeUsers "2001" =
      some ⟨"2001", "Carl", 10, 7⟩ ∧
    (assignQueuedUserToDevice (registerUser st0 "Carl" "2001" 0 10).1 "2001" 7).1.dailyLog =
      [{ userName := "Carl", userID := "2001", pcid := 7, checkInTime := 10,
         checkOutTime := none, usageTime := "" }] ∧
    ((assignQueuedUserToDevice
      (registerUser st0 "Carl" "2001" 0 10).1 "2001" 7).1.dailyLog.filter
        (fun e => e.userID == "2001")).length = 1 ∧
    (assignQueuedUserToDevice (assignQueuedUserToDevice
      (registerUser st0 "Carl" "2001" 0 10).1 "2001" 7).1 "2001" 8).2 =
      some LoungeError.alreadyAssigned := by
  have hmain := (assignQueued_spec (registerUser st0 "Carl" "2001" 0 10).1 "2001" 7).2.2.2.2
    ⟨"2001", "Carl", 10, 0⟩ { id := 7, typ := "PC", status := "free", userID := "" }
    (by rfl) (by rfl) (by rfl) (by rfl)
  refine ⟨hmain.1, hmain.2.1, ?_, ?_, ?_⟩
  · have h := hmain.2.2.2.2.1 []
      { userName := "Carl", userID := "2001", pcid := 0, checkInTime := 10,
        checkOutTime := none, usageTime := "" } [] (by rfl) (by rfl) (by simp)
    simpa using h
  · have h := hmain.2.2.2.2.2 "2001"
    simpa using h
  · exact congrArg Prod.snd ((assignQueued_spec (assignQueuedUserToDevice
      (registerUser st0 "Carl" "2001" 0 10).1 "2001" 7).1 "2001" 8).2.1
      ⟨"2001", "Carl", 10, 7⟩ (by rfl) (by decide))

/-- Claim C4: `close_checkin` scans the bucket's EventRecords from the
most recent backwards and closes the first entry matching (occupant id,
station id, open checkout) and, when an original check-in timestamp is
supplied, that exact timestamp; it sets the checkout time to now and the
usage text to the elapsed time formatted `HhMMmSSs` / `MMmSSs` / `SSs`,
with two-digit non-leading minutes and seconds and the leading unit
unpadded. -/
theorem recordLogEvent_close_spec (uid : String) (deviceID : Int)
    (original : Option Nat) (now : Nat) :
    (∀ entries, (∀ e ∈ entries, checkoutMatches uid deviceID original e = false) →
      recordCheckout uid deviceID original now entries = (entries, false)) ∧
    (∀ pre e post, checkoutMatches uid deviceID original e = true →
      (∀ x ∈ post, checkoutMatches uid deviceID original x = false) →
      recordCheckout uid deviceID original now (pre ++ e :: post) =
        (pre ++ closeEntry now e :: post, true)) ∧
    (∀ e t, checkoutMatches uid deviceID (some t) e = true ↔
      (e.userID = uid ∧ e.pcid = deviceID ∧ e.checkOutTime = none ∧ e.checkInTime = t)) ∧
    (∀ e, checkoutMatches uid deviceID none e = true ↔
      (e.userID = uid ∧ e.pcid = deviceID ∧ e.checkOutTime = none)) ∧
    (∀ e, (closeEntry now e).checkOutTime = some now ∧
      (closeEntry now e).usageTime = formatDuration (now - e.checkInTime) ∧
      (closeEntry now e).checkInTime = e.checkInTime ∧
      (closeEntry now e).userID = e.userID ∧ (closeEntry now e).pcid = e.pcid) ∧
    (∀ secs,
      (3600 ≤ secs →
        formatDuration secs = toString (secs / 3600) ++ "h" ++
          pad2 ((secs / 60) % 60) ++ "m" ++ pad2 (secs % 60) ++ "s") ∧
      (60 ≤ secs → secs < 3600 →
        formatDuration secs = toString (secs / 60) ++ "m" ++ pad2 (secs % 60) ++ "s") ∧
      (secs < 60 → formatDuration secs = toString secs ++ "s")) ∧
    (∀ n, n < 60 → (pad2 n).length = 2) ∧
    (∀ n, n < 60 → 0 < n → (toString n).take 1 ≠ "0") := by
  refine ⟨?_, ?_, ?_, ?_, ?_, ?_, ?_, ?_⟩
  · intro entries h
    exact updateLastWhere_no_match _ _ entries h
  · intro pre e post he hpost
    exact updateLastWhere_last _ _ pre e post he hpost
  · intro e t
    simp [checkoutMatches, and_assoc]
  · intro e
    simp [checkoutMatches, and_assoc]
  · intro e
    exact ⟨rfl, rfl, rfl, rfl, rfl⟩
  · intro secs
    refine ⟨?_, ?_, ?_⟩
    · intro h
      have h1 : 0 < secs / 3600 := Nat.div_pos h (by norm_num)
      simp [formatDuration, h1]
    · intro h60 h3600
      have h1 : secs / 3600 = 0 := Nat.div_eq_of_lt h3600
      have hm : secs / 60 < 60 := by
        omega
      have hmod : (secs / 60) % 60 = secs / 60 := Nat.mod_eq_of_lt hm
      have h2 : 0 < secs / 60 := Nat.div_pos h60 (by norm_num)
      simp [formatDuration, h1, hmod, h2]
    · intro h
      have h1 : secs / 3600 = 0 := Nat.div_eq_of_lt (by omega)
      have h2 : secs / 60 = 0 := Nat.div_eq_of_lt h
      have h3 : secs % 60 = secs := Nat.mod_eq_of_lt h
      simp [formatDuration, h1, h2, h3]
  · decide
  · decide

/-- Concrete exercise of `recordLogEvent_close_spec`: closing Alice's open
record (check-in at 10, station 5, now 3671) selects the most recent
matching record even when an older closed one exists, and produces the
usage text "1h01m01s"; the three format shapes on 3661, 61 and 5. -/
theorem recordLogEvent_close_spec_witness :
    recordCheckout "1001" 5 (some 10) 3671
      [{ userName := "Alice", userID := "1001", pcid := 5, checkInTime := 3,
         checkOutTime := some 6, usageTime := "3s" },
       { userName := "Alice", userID := "1001", pcid := 5, checkInTime := 10,
         checkOutTime := none, usageTime := "" }] =
      ([{ userName := "Alice", userID := "1001", pcid := 5, checkInTime := 3,
          checkOutTime := some 6, usageTime := "3s" },
        { userName := "Alice", userID := "1001", pcid := 5, checkInTime := 10,
          checkOutTime := some 3671, usageTime := "1h01m01s" }], true) ∧
    formatDuration 3661 = "1h01m01s" ∧
    formatDuration 61 = "1m01s" ∧
    formatDuration 5 = "5s" := by
  refine ⟨?_, ?_, ?_, ?_⟩
  · have h := (recordLogEvent_close_spec "1001" 5 (some 10) 3671).2.1
      [{ userName := "Alice", userID := "1001", pcid := 5, checkInTime := 3,
         checkOutTime := some 6, usageTime := "3s" }]
      { userName := "Alice", userID := "1001", pcid := 5, checkInTime := 10,
        checkOutTime := none, usageTime := "" } [] (by rfl) (by simp)
    exact h
  · have h := ((recordLogEvent_close_spec "x" 0 none 0).2.2.2.2.2.1 3661).1 (by norm_num)
    exact h
  · have h := ((recordLogEvent_close_spec "x" 0 none 0).2.2.2.2.2.1 61).2.1
      (by norm_num) (by norm_num)
    exact h
  · have h := ((recordLogEvent_close_spec "x" 0 none 0).2.2.2.2.2.1 5).2.2 (by norm_num)
    exact h

/-- Claim C8, counterexample: contrary to the claim, a failed bucket read
does NOT lead to a write of the (empty-bucket-based) mutation: Go
`recordLogEvent` returns early with no write at all (`none`), while a
successful read of the same empty bucket would have written the appended
record. -/
theorem recordLogEvent_read_failure_cx :
    recordLogEventWrite ReadResult.failed true ⟨"1001", "Alice", 10, 5⟩ 5 none 10 = none ∧
    recordLogEventWrite (ReadResult.ok []) true ⟨"1001", "Alice", 10, 5⟩ 5 none 10 =
      some [checkinEntry ⟨"1001", "Alice", 10, 5⟩ 5] :=
  ⟨rfl, rfl⟩

/-- Claim C8, amended: when reading the current day's bucket fails, Go
`recordLogEvent` logs the error and returns WITHOUT writing, dropping the
event; only the display-cache refresh (`updateCurrentLogEntriesCache`)
treats the failed read as an empty bucket. On a successful read the
mutated bucket is written back whole. -/
theorem recordLogEvent_read_failure_spec (isCheckIn : Bool) (u : User)
    (deviceID : Int) (original : Option Nat) (now : Nat) :
    recordLogEventWrite ReadResult.failed isCheckIn u deviceID original now = none ∧
    (∀ entries, recordLogEventWrite (ReadResult.ok entries) true u deviceID original now =
      some (entries ++ [checkinEntry u deviceID])) ∧
    (∀ entries, recordLogEventWrite (ReadResult.ok entries) false u deviceID original now =
      some (recordCheckout u.id deviceID original now entries).1) ∧
    updateCurrentLogEntriesCache ReadResult.failed = [] := by
  refine ⟨rfl, fun entries => rfl, fun entries => rfl, rfl⟩

lemma consolesClean_update (devs : List Device) (i : Int) (f : Device → Device)
    (h : consolesClean devs)
    (hf : ∀ d, getDeviceByID devs i = some d → (f d).typ = "Console" → (f d).userID = "") :
    consolesClean (updateDeviceByID devs i f) := by
  cases hfind : getDeviceByID devs i with
  | none =>
    rw [updateDeviceByID_of_none hfind]
    exact h
  | some d =>
    obtain ⟨pre, post, hsplit, hpre, hupd⟩ := getDeviceByID_decomp hfind
    rw [hupd]
    intro x hx htyp
    rcases List.mem_append.mp hx with hx | hx
    · exact h x (by rw [hsplit]; exact List.mem_append.mpr (Or.inl hx)) htyp
    · rcases List.mem_cons.mp hx with hx | hx
      · subst hx
        exact hf d hfind htyp
      · exact h x (by rw [hsplit]; simp [hx]) htyp

lemma consolesClean_applyReload (devs : List Device) (u : User)
    (h : consolesClean devs) : consolesClean (applyReload devs u) := by
  refine consolesClean_update devs u.pcid _ h ?_
  intro d hd hcon
  have hmem := getDeviceByID_mem hd
  by_cases htyp : (d.typ == "PC") = true
  · have hPC : d.typ = "PC" := by simpa using htyp
    simp [htyp] at hcon
    rw [hPC] at hcon
    exact absurd hcon (by decide)
  · have htyp' : (d.typ == "PC") = false := by simpa using htyp
    simp [htyp'] at hcon ⊢
    exact h d hmem hcon

lemma consolesClean_registerUser (st : LoungeState) (name uid : String)
    (deviceID : Int) (now : Nat) (h : consolesClean st.allDevices) :
    consolesClean ((registerUser st name uid deviceID now).1.allDevices) := by
  by_cases h1 : (getUserByID st.activeUsers uid).isSome
  · simpa [registerUser, h1] using h
  · have h1' : getUserByID st.activeUsers uid = none :=
      Option.not_isSome_iff_eq_none.mp h1
    by_cases h2 : deviceID = 0
    · simpa [registerUser, h1', h2, registerFinish] using h
    · cases hdev : getDeviceByID st.allDevices deviceID with
      | none => simpa [registerUser, h1', h2, hdev, bne_iff_ne] using h
      | some d =>
        by_cases htyp : (d.typ == "PC") = true
        · by_cases hst : (d.status != "free") = true
          · simpa [registerUser, h1', h2, hdev, htyp, hst, bne_iff_ne] using h
          · have hst' : (d.status != "free") = false := by simpa using hst
            have hres : (registerUser st name uid deviceID now).1.allDevices =
                updateDeviceByID st.allDevices deviceID
                  (fun x => { x with status := "occupied", userID := uid }) := by
              simp [registerUser, h1', h2, hdev, htyp, hst', bne_iff_ne, registerFinish]
            rw [hres]
            refine consolesClean_update _ _ _ h ?_
            intro x hx hcon
            rw [hdev] at hx
            have hxd : d = x := by
              injection hx
            simp at hcon
            rw [← hxd] at hcon
            have hPC : d.typ = "PC" := by simpa using htyp
            rw [hPC] at hcon
            exact absurd hcon (by decide)
        · have htyp' : (d.typ == "PC") = false := by simpa using htyp
          have hres : (registerUser st name uid deviceID now).1.allDevices =
              updateDeviceByID st.allDevices deviceID
                (fun x => { x with status := "occupied" }) := by
            simp [registerUser, h1', h2, hdev, htyp', bne_iff_ne, registerFinish]
          rw [hres]
          refine consolesClean_update _ _ _ h ?_
          intro x hx hcon
          have hmem := getDeviceByID_mem hx
          simp at hcon ⊢
          exact h x hmem hcon

lemma consolesClean_checkoutUser (st : LoungeState) (uid : String) (now : Nat)
    (h : consolesClean st.allDevices) :
    consolesClean ((checkoutUser st uid now).1.allDevices) := by
  cases hu : getUserByID st.activeUsers uid with
  | none => simpa [checkoutUser, hu] using h
  | some u =>
    cases hidx : st.activeUsers.findIdx? (fun v => v.id == uid) with
    | none => simpa [checkoutUser, hu, hidx] using h
    | some idx =>
      cases hdev : getDeviceByID st.allDevices u.pcid with
      | none => simpa [checkoutUser, hu, hidx, hdev] using h
      | some dev =>
        by_cases htyp : (dev.typ == "PC") = true
        · have hres : (checkoutUser st uid now).1.allDevices =
              updateDeviceByID st.allDevices u.pcid
                (fun x => { x with status := "free", userID := "" }) := by
            simp [checkoutUser, hu, hidx, hdev, htyp]
          rw [hres]
          refine consolesClean_update _ _ _ h ?_
          intro x hx hcon
          simp
        · have htyp' : (dev.typ == "PC") = false := by simpa using htyp
          by_cases hlen :
              ((activeUserIDsOnDevice (st.activeUsers.eraseIdx idx) dev.id).length == 0) = true
          · have hres : (checkoutUser st uid now).1.allDevices =
                updateDeviceByID st.allDevices u.pcid
                  (fun x => { x with status := "free" }) := by
              simp [checkoutUser, hu, hidx, hdev, htyp', hlen]
            rw [hres]
            refine consolesClean_update _ _ _ h ?_
            intro x hx hcon
            have hmem := getDeviceByID_mem hx
            simp at hcon ⊢
            exact h x hmem hcon
          · have hlen' :
                ((activeUserIDsOnDevice (st.activeUsers.eraseIdx idx) dev.id).length == 0)
                  = false := by simpa using hlen
            have hres : (checkoutUser st uid now).1.allDevices =
                updateDeviceByID st.allDevices u.pcid
                  (fun x => { x with status := "occupied" }) := by
              simp [checkoutUser, hu, hidx, hdev, htyp', hlen']
            rw [hres]
            refine consolesClean_update _ _ _ h ?_
            intro x hx hcon
            have hmem := getDeviceByID_mem hx
            simp at hcon ⊢
            exact h x hmem hcon

lemma consolesClean_assignQueued (st : LoungeState) (uid : String) (deviceID : Int)
    (h : consolesClean st.allDevices) :
    consolesClean ((assignQueuedUserToDevice st uid deviceID).1.allDevices) := by
  cases hu : getUserByID st.activeUsers uid with
  | none => simpa [assignQueuedUserToDevice, hu] using h
  | some u =>
    by_cases hpc : (u.pcid != 0) = true
    · simpa [assignQueuedUserToDevice, hu, hpc] using h
    · have hpc' : (u.pcid != 0) = false := by simpa using hpc
      cases hdev : getDeviceByID st.allDevices deviceID with
      | none => simpa [assignQueuedUserToDevice, hu, hpc', hdev] using h
      | some d =>
        by_cases hst : (d.status != "free") = true
        · simpa [assignQueuedUserToDevice, hu, hpc', hdev, hst] using h
        · have hst' : (d.status != "free") = false := by simpa using hst
          by_cases htyp : (d.typ == "PC") = true
          · have hres : (assignQueuedUserToDevice st uid deviceID).1.allDevices =
                updateDeviceByID st.allDevices deviceID
                  (fun x => { x with status := "occupied", userID := uid }) := by
              simp [assignQueuedUserToDevice, hu, hpc', hdev, hst', htyp]
            rw [hres]
            refine consolesClean_update _ _ _ h ?_
            intro x hx hcon
            rw [hdev] at hx
            have hxd : d = x := by
              injection hx
            simp at hcon
            rw [← hxd] at hcon
            have hPC : d.typ = "PC" := by simpa using htyp
            rw [hPC] at hcon
            exact absurd hcon (by decide)
          · have htyp' : (d.typ == "PC") = false := by simpa using htyp
            have hres : (assignQueuedUserToDevice st uid deviceID).1.allDevices =
                updateDeviceByID st.allDevices deviceID
                  (fun x => { x with status := "occupied" }) := by
              simp [assignQueuedUserToDevice, hu, hpc', hdev, hst', htyp']
            rw [hres]
            refine consolesClean_update _ _ _ h ?_
            intro x hx hcon
            have hmem := getDeviceByID_mem hx
            simp at hcon ⊢
            exact h x hmem hcon

/-- Claim C10: only primary (PC) stations ever record an occupant id in
the station's `UserID` field; check-in, queued assignment and startup
reload leave every Console's `UserID` empty, so a device lookup by a
(nonempty) occupant id never resolves to a Console. -/
theorem console_userID_invariant :
    consolesClean initialDevices ∧
    (∀ loadedUsers, consolesClean (initDevices loadedUsers)) ∧
    (∀ st name uid deviceID now, consolesClean st.allDevices →
      consolesClean ((registerUser st name uid deviceID now).1.allDevices)) ∧
    (∀ st uid deviceID, consolesClean st.allDevices →
      consolesClean ((assignQueuedUserToDevice st uid deviceID).1.allDevices)) ∧
    (∀ st uid now, consolesClean st.allDevices →
      consolesClean ((checkoutUser st uid now).1.allDevices)) ∧
    (∀ devs uid d, consolesClean devs → uid ≠ "" →
      getDeviceByUserID devs uid = some d → d.typ ≠ "Console") := by
  have hinit : consolesClean initialDevices := by
    intro d hd
    fin_cases hd <;> simp
  refine ⟨hinit, ?_, ?_, ?_, ?_, ?_⟩
  · intro loadedUsers
    have : ∀ (us : List User) (devs : List Device), consolesClean devs →
        consolesClean (us.foldl applyReload devs) := by
      intro us
      induction us with
      | nil => intro devs h; exact h
      | cons v vs ih =>
        intro devs h
        exact ih (applyReload devs v) (consolesClean_applyReload devs v h)
    exact this loadedUsers initialDevices hinit
  · intro st name uid deviceID now h
    exact consolesClean_registerUser st name uid deviceID now h
  · intro st uid deviceID h
    exact consolesClean_assignQueued st uid deviceID h
  · intro st uid now h
    exact consolesClean_checkoutUser st uid now h
  · intro devs uid d h hne hfind hcon
    have hmem := List.mem_of_find?_eq_some hfind
    have huid : d.userID = uid := by
      have := List.find?_some hfind
      simpa using this
    have : d.userID = "" := h d hmem hcon
    rw [huid] at this
    exact hne this

/-- Concrete exercise of `console_userID_invariant`: Eve's console
check-in keeps every console's `UserID` empty, and looking up Alice's id
resolves to her PC, never a console. -/
theorem console_userID_invariant_witness :
    consolesClean ((registerUser st0 "Eve" "1003" 17 40).1.allDevices) ∧
    ({ id := 5, typ := "PC", status := "occupied", userID := "1001" } : Device).typ ≠
      "Console" := by
  constructor
  · exact console_userID_invariant.2.2.1 st0 "Eve" "1003" 17 40 (by decide)
  · exact console_userID_invariant.2.2.2.2.2
      (registerUser st0 "Alice" "1001" 5 10).1.allDevices "1001"
      { id := 5, typ := "PC", status := "occupied", userID := "1001" }
      (by decide) (by decide) (by rfl)

lemma nearestSlotAux_some (p : ℚ × ℚ) :
    ∀ (l : List (ℚ × ℚ)) (i bi : Nat) (bd : ℚ),
      ∃ ri rd, nearestSlotAux p l i (some (bi, bd)) = some (ri, rd) ∧
        rd ≤ bd ∧ (∀ q ∈ l, rd ≤ sqDist q p) ∧
        ((ri = bi ∧ rd = bd) ∨
          ∃ k, ∃ hk : k < l.length, ri = i + k ∧ rd = sqDist (l.get ⟨k, hk⟩) p) := by
  intro l
  induction l with
  | nil =>
    intro i bi bd
    exact ⟨bi, bd, rfl, le_refl _, by simp, Or.inl ⟨rfl, rfl⟩⟩
  | cons q rest ih =>
    intro i bi bd
    by_cases hlt : sqDist q p < bd
    · obtain ⟨ri, rd, heq, hle, hall, hidx⟩ := ih (i + 1) i (sqDist q p)
      refine ⟨ri, rd, ?_, hle.trans hlt.le, ?_, ?_⟩
      · simpa [nearestSlotAux, hlt] using heq
      · intro x hx
        rcases List.mem_cons.mp hx with hx | hx
        · exact hx ▸ hle
        · exact hall x hx
      · rcases hidx with ⟨h1, h2⟩ | ⟨k, hk, h1, h2⟩
        · refine Or.inr ⟨0, by simp, by omega, by simpa using h2⟩
        · refine Or.inr ⟨k + 1, by simpa using hk, by omega, ?_⟩
          simpa using h2
    · have hge : bd ≤ sqDist q p := not_lt.mp hlt
      obtain ⟨ri, rd, heq, hle, hall, hidx⟩ := ih (i + 1) bi bd
      refine ⟨ri, rd, ?_, hle, ?_, ?_⟩
      · simpa [nearestSlotAux, hlt] using heq
      · intro x hx
        rcases List.mem_cons.mp hx with hx | hx
        · exact hx ▸ (hle.trans hge)
        · exact hall x hx
      · rcases hidx with ⟨h1, h2⟩ | ⟨k, hk, h1, h2⟩
        · exact Or.inl ⟨h1, h2⟩
        · refine Or.inr ⟨k + 1, by simpa using hk, by omega, ?_⟩
          simpa using h2

/-- Claim C9: `nearest_slot(point)` returns `none` (Go `-1`) exactly when
the precomputed slot-position list is empty, and otherwise returns an
index of a slot position whose squared Euclidean distance to the point is
minimal over all slot positions. -/
theorem nearestSlot_spec (ps : List (ℚ × ℚ)) (p : ℚ × ℚ) :
    (nearestSlot ps p = none ↔ ps = []) ∧
    (∀ i, nearestSlot ps p = some i →
      ∃ h : i < ps.length, ∀ q ∈ ps, sqDist (ps.get ⟨i, h⟩) p ≤ sqDist q p) := by
  cases ps with
  | nil =>
    constructor
    · simp [nearestSlot]
    · intro i hi
      simp [nearestSlot] at hi
  | cons q rest =>
    obtain ⟨ri, rd, heq, hle, hall, hidx⟩ := nearestSlotAux_some p rest 1 0 (sqDist q p)
    have hns : nearestSlot (q :: rest) p = some ri := by
      simp [nearestSlot, nearestSlotAux, heq]
    constructor
    · simp [hns]
    · intro i hi
      rw [hns] at hi
      injection hi with hi
      subst hi
      rcases hidx with ⟨h1, h2⟩ | ⟨k, hk, h1, h2⟩
      · subst h1
        refine ⟨by simp, ?_⟩
        intro x hx
        have hget : (q :: rest).get ⟨0, by simp⟩ = q := rfl
        rw [hget]
        rcases List.mem_cons.mp hx with hx | hx
        · exact hx ▸ le_refl _
        · have := hall x hx
          rw [h2] at this
          exact this
      · have h1' : ri = k + 1 := by omega
        subst h1'
        refine ⟨by simpa using Nat.succ_lt_succ hk, ?_⟩
        intro x hx
        have hget : (q :: rest).get ⟨k + 1, by simpa using Nat.succ_lt_succ hk⟩ =
            rest.get ⟨k, hk⟩ := rfl
        rw [hget, ← h2]
        rcases List.mem_cons.mp hx with hx | hx
        · exact hx ▸ hle
        · exact hall x hx

/-- Concrete exercise of `nearestSlot_spec`: among positions (0,0) and
(3,4), the point (0,1) is closer to slot 0, and the empty list yields no
slot. -/
theorem nearestSlot_spec_witness :
    nearestSlot [] ((0 : ℚ), (1 : ℚ)) = none ∧
    (∃ h : 0 < [((0 : ℚ), (0 : ℚ)), ((3 : ℚ), (4 : ℚ))].length,
      ∀ q ∈ [((0 : ℚ), (0 : ℚ)), ((3 : ℚ), (4 : ℚ))],
        sqDist ([((0 : ℚ), (0 : ℚ)), ((3 : ℚ), (4 : ℚ))].get ⟨0, h⟩) ((0 : ℚ), (1 : ℚ)) ≤
          sqDist q ((0 : ℚ), (1 : ℚ))) := by
  constructor
  · exact (nearestSlot_spec [] ((0 : ℚ), (1 : ℚ))).1.mpr rfl
  · exact (nearestSlot_spec [((0 : ℚ), (0 : ℚ)), ((3 : ℚ), (4 : ℚ))]
      ((0 : ℚ), (1 : ℚ))).2 0 (by norm_num [nearestSlot, nearestSlotAux, sqDist])

/-! Association-list lemmas for the slot-layout store. -/

lemma lookupSlot_cons_ne {q : Int × Nat} {rest : List (Int × Nat)} {x : Int}
    (h : x ≠ q.1) : lookupSlot (q :: rest) x = lookupSlot rest x := by
  have : (q.1 == x) = false := by
    simpa using fun he => h he.symm
  simp [lookupSlot, List.find?, this]

lemma lookupSlot_cons_self {q : Int × Nat} {rest : List (Int × Nat)} :
    lookupSlot (q :: rest) q.1 = some q.2 := by
  simp [lookupSlot, List.find?]

lemma lookupSlot_isSome_iff (m : List (Int × Nat)) (a : Int) :
    (lookupSlot m a).isSome ↔ a ∈ m.map Prod.fst := by
  induction m with
  | nil => simp [lookupSlot]
  | cons q rest ih =>
    by_cases hx : a = q.1
    · subst hx
      simp [lookupSlot_cons_self]
    · rw [lookupSlot_cons_ne hx]
      simp [ih, hx]

lemma lookupSlot_mem {m : List (Int × Nat)} {a : Int} {s : Nat}
    (h : lookupSlot m a = some s) : (a, s) ∈ m := by
  induction m with
  | nil => simp [lookupSlot] at h
  | cons q rest ih =>
    by_cases hx : a = q.1
    · subst hx
      rw [lookupSlot_cons_self] at h
      injection h with h
      subst h
      simp
    · rw [lookupSlot_cons_ne hx] at h
      exact List.mem_cons_of_mem _ (ih h)

lemma keysNodup_head {q : Int × Nat} {rest : List (Int × Nat)}
    (hk : ((q :: rest).map Prod.fst).Nodup) : q.1 ∉ rest.map Prod.fst := by
  rw [List.map_cons] at hk
  exact (List.nodup_cons.mp hk).1

lemma keysNodup_tail {q : Int × Nat} {rest : List (Int × Nat)}
    (hk : ((q :: rest).map Prod.fst).Nodup) : (rest.map Prod.fst).Nodup := by
  rw [List.map_cons] at hk
  exact (List.nodup_cons.mp hk).2

lemma mem_lookupSlot {m : List (Int × Nat)} {a : Int} {s : Nat}
    (hk : (m.map Prod.fst).Nodup) (h : (a, s) ∈ m) : lookupSlot m a = some s := by
  induction m with
  | nil => simp at h
  | cons q rest ih =>
    rcases List.mem_cons.mp h with h | h
    · subst h
      exact lookupSlot_cons_self
    · have ha : a ≠ q.1 := by
        intro he
        apply keysNodup_head hk
        rw [← he]
        exact List.mem_map.mpr ⟨(a, s), h, rfl⟩
      rw [lookupSlot_cons_ne ha]
      exact ih (keysNodup_tail hk) h

lemma lookupSlot_setSlot_self (m : List (Int × Nat)) (a : Int) (t : Nat) :
    lookupSlot (setSlot m a t) a = some t := by
  induction m with
  | nil => simp [setSlot, lookupSlot, List.find?]
  | cons q rest ih =>
    by_cases hq : (q.1 == a) = true
    · have : q.1 = a := by simpa using hq
      simp [setSlot, hq, lookupSlot, List.find?]
    · have hx : a ≠ q.1 := by
        intro he
        exact hq (by simp [he])
      simp only [setSlot, hq, if_false, Bool.false_eq_true]
      rw [lookupSlot_cons_ne hx]
      exact ih

lemma lookupSlot_setSlot_ne {m : List (Int × Nat)} {a x : Int} (t : Nat)
    (h : x ≠ a) : lookupSlot (setSlot m a t) x = lookupSlot m x := by
  induction m with
  | nil =>
    have : ((a, t).1 == x) = false := by
      simpa using fun he => h he.symm
    simp [setSlot, lookupSlot, List.find?, this]
  | cons q rest ih =>
    by_cases hq : (q.1 == a) = true
    · have hqa : q.1 = a := by simpa using hq
      have hxq1 : x ≠ q.1 := by
        rw [hqa]
        exact h
      simp only [setSlot, hq, if_true]
      rw [lookupSlot_cons_ne (show x ≠ (a, t).1 from h), lookupSlot_cons_ne hxq1]
    · simp only [setSlot, hq, if_false, Bool.false_eq_true]
      by_cases hxq2 : x = q.1
      · subst hxq2
        rw [lookupSlot_cons_self, lookupSlot_cons_self]
      · rw [lookupSlot_cons_ne hxq2, lookupSlot_cons_ne hxq2]
        exact ih

lemma setSlot_keys_of_mem {m : List (Int × Nat)} {a : Int} (t : Nat)
    (h : a ∈ m.map Prod.fst) : (setSlot m a t).map Prod.fst = m.map Prod.fst := by
  induction m with
  | nil => simp at h
  | cons q rest ih =>
    by_cases hq : (q.1 == a) = true
    · have hqa : q.1 = a := by simpa using hq
      simp [setSlot, hq, hqa]
    · have hqa : q.1 ≠ a := by simpa using hq
      have hrest : a ∈ rest.map Prod.fst := by
        rcases List.mem_map.mp h with ⟨p, hp, hfst⟩
        rcases List.mem_cons.mp hp with hp | hp
        · exact absurd (hp ▸ hfst) hqa
        · exact List.mem_map.mpr ⟨p, hp, hfst⟩
      simp [setSlot, hq, ih hrest]

lemma setSlot_eq_append {m : List (Int × Nat)} {a : Int} (t : Nat)
    (h : lookupSlot m a = none) : setSlot m a t = m ++ [(a, t)] := by
  induction m with
  | nil => rfl
  | cons q rest ih =>
    by_cases hx : a = q.1
    · subst hx
      rw [lookupSlot_cons_self] at h
      exact absurd h (by simp)
    · have hq : (q.1 == a) = false := by
        simpa using fun he => hx he.symm
      rw [lookupSlot_cons_ne hx] at h
      simp [setSlot, hq, ih h]

lemma findDeviceAtSlot_mem {m : List (Int × Nat)} {t : Nat} {b : Int}
    (h : findDeviceAtSlot m t = some b) : (b, t) ∈ m := by
  unfold findDeviceAtSlot at h
  cases hf : m.find? (fun p => p.2 == t) with
  | none => rw [hf] at h; simp at h
  | some q =>
    rw [hf] at h
    have hq2 : q.2 = t := by
      have := List.find?_some hf
      simpa using this
    have hb : q.1 = b := by
      simpa using h
    have hmem := List.mem_of_find?_eq_some hf
    have : q = (b, t) := by
      rw [← hb, ← hq2]
    rw [← this]
    exact hmem

lemma findDeviceAtSlot_none_snd {m : List (Int × Nat)} {t : Nat}
    (h : findDeviceAtSlot m t = none) : ∀ x ∈ m, x.2 ≠ t := by
  intro x hx he
  unfold findDeviceAtSlot at h
  cases hf : m.find? (fun p => p.2 == t) with
  | none =>
    have := List.find?_eq_none.mp hf x hx
    exact this (by simpa using he)
  | some q => rw [hf] at h; simp at h

lemma SlotInj_tail {q : Int × Nat} {rest : List (Int × Nat)}
    (hk : ((q :: rest).map Prod.fst).Nodup) (hinj : SlotInj (q :: rest)) :
    SlotInj rest := by
  intro x y sx sy hx hy hxy
  have hqk := keysNodup_head hk
  have hxne : x ≠ q.1 := by
    intro he
    apply hqk
    rw [← he]
    exact (lookupSlot_isSome_iff rest x).mp (by simp [hx])
  have hyne : y ≠ q.1 := by
    intro he
    apply hqk
    rw [← he]
    exact (lookupSlot_isSome_iff rest y).mp (by simp [hy])
  have hx' : lookupSlot (q :: rest) x = some sx := by
    rw [lookupSlot_cons_ne hxne]
    exact hx
  have hy' : lookupSlot (q :: rest) y = some sy := by
    rw [lookupSlot_cons_ne hyne]
    exact hy
  exact hinj x y sx sy hx' hy' hxy

lemma findDeviceAtSlot_of_lookup :
    ∀ m : List (Int × Nat), (m.map Prod.fst).Nodup → SlotInj m →
      ∀ (b : Int) (t : Nat), lookupSlot m b = some t → findDeviceAtSlot m t = some b := by
  intro m
  induction m with
  | nil =>
    intro _ _ b t hb
    simp [lookupSlot] at hb
  | cons q rest ih =>
    intro hk hinj b t hb
    by_cases hq : (q.2 == t) = true
    · have hq2 : q.2 = t := by simpa using hq
      have hqlook : lookupSlot (q :: rest) q.1 = some t := by
        rw [lookupSlot_cons_self, hq2]
      have hqb : q.1 = b := by
        by_contra hne
        exact hinj q.1 b t t hqlook hb hne rfl
      simp [findDeviceAtSlot, List.find?, hq, hqb]
    · have hq2 : q.2 ≠ t := by simpa using hq
      have hbq : b ≠ q.1 := by
        intro he
        rw [he, lookupSlot_cons_self] at hb
        injection hb with hb
        exact hq2 hb
      have hbrest : lookupSlot rest b = some t := by
        rw [lookupSlot_cons_ne hbq] at hb
        exact hb
      have := ih (keysNodup_tail hk) (SlotInj_tail hk hinj) b t hbrest
      simpa [findDeviceAtSlot, List.find?, hq] using this

lemma setSlot_setSlot_same (m : List (Int × Nat)) (a : Int) (x y : Nat) :
    setSlot (setSlot m a x) a y = setSlot m a y := by
  induction m with
  | nil => simp [setSlot]
  | cons q rest ih =>
    by_cases hq : (q.1 == a) = true
    · simp [setSlot, hq]
    · simp [setSlot, hq, ih]

lemma setSlot_comm {m : List (Int × Nat)} {a b : Int} (hab : a ≠ b)
    (ha : a ∈ m.map Prod.fst) (x y : Nat) :
    setSlot (setSlot m a x) b y = setSlot (setSlot m b y) a x := by
  induction m with
  | nil => simp at ha
  | cons q rest ih =>
    by_cases hqa : (q.1 == a) = true
    · have hqa' : q.1 = a := by simpa using hqa
      have hqb : (q.1 == b) = false := by
        simp [hqa']
        exact hab
      simp [setSlot, hqa, hqb, hab]
    · by_cases hqb : (q.1 == b) = true
      · simp [setSlot, hqa, hqb, Ne.symm hab]
      · have ha' : a ∈ rest.map Prod.fst := by
          rcases List.mem_map.mp ha with ⟨p, hp, hfst⟩
          rcases List.mem_cons.mp hp with hp | hp
          · exact absurd (by simp [hp ▸ hfst]) hqa
          · exact List.mem_map.mpr ⟨p, hp, hfst⟩
        simp [setSlot, hqa, hqb, ih ha']

lemma setSlot_of_lookup {m : List (Int × Nat)} {a : Int} {s : Nat}
    (h : lookupSlot m a = some s) : setSlot m a s = m := by
  induction m with
  | nil => simp [lookupSlot] at h
  | cons q rest ih =>
    by_cases hq : (q.1 == a) = true
    · have hqa : q.1 = a := by simpa using hq
      have hq2 : q.2 = s := by
        rw [← hqa, lookupSlot_cons_self] at h
        injection h
      simp [setSlot, hq, ← hqa, ← hq2]
    · have hxq : a ≠ q.1 := by
        intro he
        exact absurd (by simp [he]) hq
      rw [lookupSlot_cons_ne hxq] at h
      simp [setSlot, hq, ih h]

lemma swapSlot_noop {m : List (Int × Nat)} {a : Int} {t : Nat}
    (h : lookupSlot m a = some t) : swapSlot m a t = m := by
  simp [swapSlot, h]

lemma swapSlot_eq_exchange {m : List (Int × Nat)} {a b : Int} {t sa : Nat}
    (ha : lookupSlot m a = some sa) (hfb : findDeviceAtSlot m t = some b)
    (hne : sa ≠ t) : swapSlot m a t = setSlot (setSlot m a t) b sa := by
  simp [swapSlot, ha, hfb, hne]

lemma swapSlot_eq_move {m : List (Int × Nat)} {a : Int} {t sa : Nat}
    (ha : lookupSlot m a = some sa) (hfb : findDeviceAtSlot m t = none)
    (hne : sa ≠ t) : swapSlot m a t = setSlot m a t := by
  simp [swapSlot, ha, hfb, hne]

lemma swap_exchange_basics {m : List (Int × Nat)} {a b : Int} {t sa : Nat}
    (hk : (m.map Prod.fst).Nodup) (ha : lookupSlot m a = some sa)
    (hfb : findDeviceAtSlot m t = some b) (hne : sa ≠ t) :
    b ≠ a ∧ lookupSlot m b = some t := by
  have hmem := findDeviceAtSlot_mem hfb
  have hlb : lookupSlot m b = some t := mem_lookupSlot hk hmem
  refine ⟨?_, hlb⟩
  intro he
  rw [he, ha] at hlb
  injection hlb with hlb
  exact hne hlb

lemma swapSlot_lookup_exchange {m : List (Int × Nat)} {a b : Int} {t sa : Nat}
    (hk : (m.map Prod.fst).Nodup) (ha : lookupSlot m a = some sa)
    (hfb : findDeviceAtSlot m t = some b) (hne : sa ≠ t) :
    ∀ x, lookupSlot (swapSlot m a t) x =
      if x = b then some sa else if x = a then some t else lookupSlot m x := by
  obtain ⟨hba, hlb⟩ := swap_exchange_basics hk ha hfb hne
  rw [swapSlot_eq_exchange ha hfb hne]
  intro x
  by_cases hxb : x = b
  · subst hxb
    rw [lookupSlot_setSlot_self]
    simp
  · rw [lookupSlot_setSlot_ne _ hxb]
    by_cases hxa : x = a
    · subst hxa
      rw [lookupSlot_setSlot_self]
      simp [hxb]
    · rw [lookupSlot_setSlot_ne _ hxa]
      simp [hxb, hxa]

lemma SlotInj_swap_exchange {m : List (Int × Nat)} {a b : Int} {t sa : Nat}
    (hk : (m.map Prod.fst).Nodup) (hinj : SlotInj m)
    (ha : lookupSlot m a = some sa) (hfb : findDeviceAtSlot m t = some b)
    (hne : sa ≠ t) : SlotInj (swapSlot m a t) := by
  obtain ⟨hba, hlb⟩ := swap_exchange_basics hk ha hfb hne
  have hlook := swapSlot_lookup_exchange hk ha hfb hne
  intro u v su sv hu hv huv
  rw [hlook u] at hu
  rw [hlook v] at hv
  by_cases hub : u = b
  · rw [if_pos hub] at hu
    injection hu with hu
    by_cases hvb : v = b
    · exact absurd (hub.trans hvb.symm) huv
    · rw [if_neg hvb] at hv
      by_cases hva : v = a
      · rw [if_pos hva] at hv
        injection hv with hv
        rw [← hu, ← hv]
        exact hne
      · rw [if_neg hva] at hv
        rw [← hu]
        intro he
        exact hinj a v sa sv ha hv (fun hh => hva hh.symm) he
  · rw [if_neg hub] at hu
    by_cases hua : u = a
    · rw [if_pos hua] at hu
      injection hu with hu
      by_cases hvb : v = b
      · rw [if_pos hvb] at hv
        injection hv with hv
        rw [← hu, ← hv]
        exact fun he => hne he.symm
      · rw [if_neg hvb] at hv
        by_cases hva : v = a
        · exact absurd (hua.trans hva.symm) huv
        · rw [if_neg hva] at hv
          rw [← hu]
          intro he
          exact hinj b v t sv hlb hv (fun hh => hvb hh.symm) he
    · rw [if_neg hua] at hu
      by_cases hvb : v = b
      · rw [if_pos hvb] at hv
        injection hv with hv
        rw [← hv]
        intro he
        exact hinj u a su sa hu ha hua he
      · rw [if_neg hvb] at hv
        by_cases hva : v = a
        · rw [if_pos hva] at hv
          injection hv with hv
          rw [← hv]
          intro he
          exact hinj u b su t hu hlb hub he
        · rw [if_neg hva] at hv
          exact hinj u v su sv hu hv huv

lemma swapSlot_lookup_move {m : List (Int × Nat)} {a : Int} {t sa : Nat}
    (ha : lookupSlot m a = some sa) (hfb : findDeviceAtSlot m t = none)
    (hne : sa ≠ t) :
    ∀ x, lookupSlot (swapSlot m a t) x =
      if x = a then some t else lookupSlot m x := by
  rw [swapSlot_eq_move ha hfb hne]
  intro x
  by_cases hxa : x = a
  · subst hxa
    rw [lookupSlot_setSlot_self]
    simp
  · rw [lookupSlot_setSlot_ne _ hxa]
    simp [hxa]

lemma SlotInj_swap_move {m : List (Int × Nat)} {a : Int} {t sa : Nat}
    (hinj : SlotInj m) (ha : lookupSlot m a = some sa)
    (hfb : findDeviceAtSlot m t = none) (hne : sa ≠ t) :
    SlotInj (swapSlot m a t) := by
  have hlook := swapSlot_lookup_move ha hfb hne
  intro u v su sv hu hv huv
  rw [hlook u] at hu
  rw [hlook v] at hv
  by_cases hua : u = a
  · rw [if_pos hua] at hu
    injection hu with hu
    have hva : ¬ v = a := fun hh => huv (hua.trans hh.symm)
    rw [if_neg hva] at hv
    rw [← hu]
    intro he
    exact findDeviceAtSlot_none_snd hfb (v, sv) (lookupSlot_mem hv) he.symm
  · rw [if_neg hua] at hu
    by_cases hva : v = a
    · rw [if_pos hva] at hv
      injection hv with hv
      rw [← hv]
      intro he
      exact findDeviceAtSlot_none_snd hfb (u, su) (lookupSlot_mem hu) he
    · rw [if_neg hva] at hv
      exact hinj u v su sv hu hv huv

lemma swapSlot_keys {m : List (Int × Nat)} {a : Int} (t : Nat)
    (hk : (m.map Prod.fst).Nodup) (haK : a ∈ m.map Prod.fst) :
    (swapSlot m a t).map Prod.fst = m.map Prod.fst := by
  have hsome : (lookupSlot m a).isSome := (lookupSlot_isSome_iff m a).mpr haK
  obtain ⟨sa, ha⟩ := Option.isSome_iff_exists.mp hsome
  by_cases hne : sa = t
  · rw [hne] at ha
    rw [swapSlot_noop ha]
  · cases hfb : findDeviceAtSlot m t with
    | some b =>
      obtain ⟨hba, hlb⟩ := swap_exchange_basics hk ha hfb hne
      have hbK : b ∈ m.map Prod.fst := (lookupSlot_isSome_iff m b).mp (by simp [hlb])
      rw [swapSlot_eq_exchange ha hfb hne]
      rw [setSlot_keys_of_mem sa (by rw [setSlot_keys_of_mem t haK]; exact hbK)]
      exact setSlot_keys_of_mem t haK
    | none =>
      rw [swapSlot_eq_move ha hfb hne]
      exact setSlot_keys_of_mem t haK

lemma SlotInv_swapSlot {m : List (Int × Nat)} {a : Int} (t : Nat)
    (hinv : SlotInv m) (haDev : a ∈ deviceIds) : SlotInv (swapSlot m a t) := by
  obtain ⟨hk, hinj, htot⟩ := hinv
  have hsome := htot a haDev
  obtain ⟨sa, ha⟩ := Option.isSome_iff_exists.mp hsome
  have haK : a ∈ m.map Prod.fst := (lookupSlot_isSome_iff m a).mp (by simp [ha])
  by_cases hne : sa = t
  · rw [hne] at ha
    rw [swapSlot_noop ha]
    exact ⟨hk, hinj, htot⟩
  · refine ⟨?_, ?_, ?_⟩
    · rw [swapSlot_keys t hk haK]
      exact hk
    · cases hfb : findDeviceAtSlot m t with
      | some b => exact SlotInj_swap_exchange hk hinj ha hfb hne
      | none => exact SlotInj_swap_move hinj ha hfb hne
    · intro d hd
      cases hfb : findDeviceAtSlot m t with
      | some b =>
        rw [swapSlot_lookup_exchange hk ha hfb hne d]
        by_cases hdb : d = b
        · rw [if_pos hdb]
          rfl
        · rw [if_neg hdb]
          by_cases hda : d = a
          · rw [if_pos hda]
            rfl
          · rw [if_neg hda]
            exact htot d hd
      | none =>
        rw [swapSlot_lookup_move ha hfb hne d]
        by_cases hda : d = a
        · rw [if_pos hda]
          rfl
        · rw [if_neg hda]
          exact htot d hd

lemma mem_le_maxOcc {occ : List Nat} {x : Nat} (h : x ∈ occ) : x ≤ maxOcc occ := by
  induction occ with
  | nil => simp at h
  | cons y ys ih =>
    rcases List.mem_cons.mp h with h | h
    · subst h
      exact le_max_left _ _
    · exact (ih h).trans (le_max_right _ _)

lemma firstFreeAux_not_mem (occ : List Nat) :
    ∀ (fuel s : Nat), maxOcc occ + 1 ≤ fuel + s → firstFreeAux occ fuel s ∉ occ := by
  intro fuel
  induction fuel with
  | zero =>
    intro s hb hmem
    have hz : firstFreeAux occ 0 s = s := rfl
    rw [hz] at hmem
    have := mem_le_maxOcc hmem
    omega
  | succ fuel ih =>
    intro s hb
    by_cases hs : s ∈ occ
    · have : firstFreeAux occ (fuel + 1) s = firstFreeAux occ fuel (s + 1) := by
        simp [firstFreeAux, hs]
      rw [this]
      exact ih (s + 1) (by omega)
    · have : firstFreeAux occ (fuel + 1) s = s := by
        simp [firstFreeAux, hs]
      rw [this]
      exact hs

lemma firstFree_not_mem (occ : List Nat) (s : Nat) : firstFree occ s ∉ occ :=
  firstFreeAux_not_mem occ (maxOcc occ + 1) s (by omega)

/-- Loop invariant of `ensureMapping`: the map has unique keys, is
injective, and every slot it uses is recorded in `occ`. -/
def EnsureInv (est : EnsureState) : Prop :=
  (est.m.map Prod.fst).Nodup ∧ SlotInj est.m ∧
    ∀ x s, lookupSlot est.m x = some s → s ∈ est.occ

lemma ensureStep_inv {est : EnsureState} (h : EnsureInv est) (d : Int) :
    EnsureInv (ensureStep est d) := by
  by_cases hd : (lookupSlot est.m d).isSome
  · simpa [ensureStep, hd] using h
  · have hdn : lookupSlot est.m d = none := by
      simpa [Option.not_isSome_iff_eq_none] using hd
    have hs := firstFree_not_mem est.occ est.slot
    have hstep : ensureStep est d =
        { m := setSlot est.m d (firstFree est.occ est.slot),
          occ := firstFree est.occ est.slot :: est.occ,
          slot := firstFree est.occ est.slot + 1 } := by
      simp [ensureStep, hd]
    rw [hstep]
    obtain ⟨hk, hinj, hocc⟩ := h
    have hdK : d ∉ est.m.map Prod.fst := by
      intro hmem
      exact hd ((lookupSlot_isSome_iff est.m d).mpr hmem)
    refine ⟨?_, ?_, ?_⟩
    · rw [setSlot_eq_append _ hdn]
      rw [List.map_append]
      rw [List.nodup_append]
      refine ⟨hk, by simp, ?_⟩
      intro x hx hy
      simp at hy
      subst hy
      exact hdK hx
    · intro u v su sv hu hv huv
      by_cases hud : u = d
      · rw [hud, lookupSlot_setSlot_self] at hu
        injection hu with hu
        have hvd : ¬ v = d := fun hh => huv (hud.trans hh.symm)
        rw [lookupSlot_setSlot_ne _ hvd] at hv
        rw [← hu]
        intro he
        exact hs (he ▸ hocc v sv hv)
      · rw [lookupSlot_setSlot_ne _ hud] at hu
        by_cases hvd : v = d
        · rw [hvd, lookupSlot_setSlot_self] at hv
          injection hv with hv
          rw [← hv]
          intro he
          exact hs (he ▸ hocc u su hu)
        · rw [lookupSlot_setSlot_ne _ hvd] at hv
          exact hinj u v su sv hu hv huv
    · intro x s hx
      by_cases hxd : x = d
      · rw [hxd, lookupSlot_setSlot_self] at hx
        injection hx with hx
        simp [← hx]
      · rw [lookupSlot_setSlot_ne _ hxd] at hx
        exact List.mem_cons_of_mem _ (hocc x s hx)

lemma ensureStep_mono {est : EnsureState} (d : Int) (x : Int)
    (h : (lookupSlot est.m x).isSome) :
    (lookupSlot (ensureStep est d).m x).isSome := by
  by_cases hd : (lookupSlot est.m d).isSome
  · simpa [ensureStep, hd] using h
  · have hstep : (ensureStep est d).m = setSlot est.m d (firstFree est.occ est.slot) := by
      simp [ensureStep, hd]
    rw [hstep]
    by_cases hxd : x = d
    · rw [hxd, lookupSlot_setSlot_self]
      rfl
    · rw [lookupSlot_setSlot_ne _ hxd]
      exact h

lemma ensureStep_maps (est : EnsureState) (d : Int) :
    (lookupSlot (ensureStep est d).m d).isSome := by
  by_cases hd : (lookupSlot est.m d).isSome
  · simp [ensureStep, hd]
  · have hstep : (ensureStep est d).m = setSlot est.m d (firstFree est.occ est.slot) := by
      simp [ensureStep, hd]
    rw [hstep, lookupSlot_setSlot_self]
    rfl

lemma ensure_foldl :
    ∀ (l : List Int) (est : EnsureState), EnsureInv est →
      EnsureInv (l.foldl ensureStep est) ∧
      (∀ x, (lookupSlot est.m x).isSome →
        (lookupSlot (l.foldl ensureStep est).m x).isSome) ∧
      (∀ d ∈ l, (lookupSlot (l.foldl ensureStep est).m d).isSome) := by
  intro l
  induction l with
  | nil =>
    intro est h
    exact ⟨h, fun x hx => hx, by simp⟩
  | cons d rest ih =>
    intro est h
    have hstep := ensureStep_inv h d
    obtain ⟨hi, hmono, hall⟩ := ih (ensureStep est d) hstep
    refine ⟨hi, ?_, ?_⟩
    · intro x hx
      exact hmono x (ensureStep_mono d x hx)
    · intro e he
      rcases List.mem_cons.mp he with he | he
      · subst he
        exact hmono e (ensureStep_maps est e)
      · exact hall e he

lemma SlotInv_loadFresh : SlotInv (ensureMapping []) := by
  have hcond : (([] : List (Int × Nat)).length == defaultOrder.length) = false := by decide
  have hrw : ensureMapping [] =
      (defaultOrder.foldl ensureStep
        { m := [], occ := ([] : List (Int × Nat)).map (fun p => p.2), slot := 0 }).m := by
    rfl
  have hbase : EnsureInv { m := [], occ := ([] : List (Int × Nat)).map (fun p => p.2), slot := 0 } := by
    refine ⟨by simp, ?_, ?_⟩
    · intro u v su sv hu
      simp [lookupSlot] at hu
    · intro x s hx
      simp [lookupSlot] at hx
  obtain ⟨hi, _, hall⟩ := ensure_foldl defaultOrder _ hbase
  rw [hrw]
  exact ⟨hi.1, hi.2.1, fun d hd => hall d hd⟩

lemma ensure_foldl_skip :
    ∀ (l : List Int) (est : EnsureState),
      (∀ d ∈ l, (lookupSlot est.m d).isSome) → l.foldl ensureStep est = est := by
  intro l
  induction l with
  | nil => intro est _; rfl
  | cons d rest ih =>
    intro est h
    have hd : ensureStep est d = est := by
      simp [ensureStep, h d (by simp)]
    calc (d :: rest).foldl ensureStep est = rest.foldl ensureStep (ensureStep est d) := rfl
      _ = rest.foldl ensureStep est := by rw [hd]
      _ = est := ih est (fun e he => h e (by simp [he]))

lemma ensureMapping_id {m : List (Int × Nat)} (hinv : SlotInv m) :
    ensureMapping m = m := by
  by_cases hlen : (m.length == defaultOrder.length) = true
  · simp [ensureMapping, hlen]
  · have hlen' : (m.length == defaultOrder.length) = false := by simpa using hlen
    have hall : ∀ d ∈ defaultOrder, (lookupSlot m d).isSome := hinv.2.2
    have := ensure_foldl_skip defaultOrder
      { m := m, occ := m.map (fun p => p.2), slot := 0 } hall
    simp [ensureMapping, hlen', this]

lemma foldl_setSlot_append :
    ∀ (es acc : List (Int × Nat)), (es.map Prod.fst).Nodup →
      (∀ p ∈ es, lookupSlot acc p.1 = none) →
      es.foldl (fun m p => setSlot m p.1 p.2) acc = acc ++ es := by
  intro es
  induction es with
  | nil => intro acc _ _; simp
  | cons p rest ih =>
    intro acc hk hnone
    have hhead : setSlot acc p.1 p.2 = acc ++ [p] := by
      rw [setSlot_eq_append _ (hnone p (by simp))]
    have hrest : ∀ q ∈ rest, lookupSlot (acc ++ [p]) q.1 = none := by
      intro q hq
      have hqp : q.1 ≠ p.1 := by
        intro he
        exact keysNodup_head hk (List.mem_map.mpr ⟨q, hq, he⟩)
      rw [← hhead, lookupSlot_setSlot_ne _ hqp]
      exact hnone q (by simp [hq])
    calc (p :: rest).foldl (fun m q => setSlot m q.1 q.2) acc
        = rest.foldl (fun m q => setSlot m q.1 q.2) (setSlot acc p.1 p.2) := rfl
      _ = rest.foldl (fun m q => setSlot m q.1 q.2) (acc ++ [p]) := by rw [hhead]
      _ = (acc ++ [p]) ++ rest := ih (acc ++ [p]) (keysNodup_tail hk) hrest
      _ = acc ++ p :: rest := by simp

lemma lookupSlot_of_perm {m es : List (Int × Nat)}
    (hk : (m.map Prod.fst).Nodup) (hperm : es.Perm m) :
    ∀ x, lookupSlot es x = lookupSlot m x := by
  have hkes : (es.map Prod.fst).Nodup := ((hperm.map Prod.fst).nodup_iff).mpr hk
  intro x
  cases hes : lookupSlot es x with
  | none =>
    cases hm : lookupSlot m x with
    | none => rfl
    | some s =>
      have : (x, s) ∈ es := hperm.mem_iff.mpr (lookupSlot_mem hm)
      rw [mem_lookupSlot hkes this] at hes
      exact absurd hes (by simp)
  | some s =>
    have : (x, s) ∈ m := hperm.mem_iff.mp (lookupSlot_mem hes)
    exact (mem_lookupSlot hk this).symm

lemma SlotInv_of_perm {m es : List (Int × Nat)}
    (hinv : SlotInv m) (hperm : es.Perm m) : SlotInv es := by
  obtain ⟨hk, hinj, htot⟩ := hinv
  have hlook := lookupSlot_of_perm hk hperm
  refine ⟨((hperm.map Prod.fst).nodup_iff).mpr hk, ?_, ?_⟩
  · intro u v su sv hu hv huv
    rw [hlook u] at hu
    rw [hlook v] at hv
    exact hinj u v su sv hu hv huv
  · intro d hd
    rw [hlook d]
    exact htot d hd

lemma loadLayout_saved {m es : List (Int × Nat)}
    (hinv : SlotInv m) (hperm : es.Perm m) : loadLayout (some es) = es := by
  have hkes : (es.map Prod.fst).Nodup := ((hperm.map Prod.fst).nodup_iff).mpr hinv.1
  have hbuild : es.foldl (fun acc p => setSlot acc p.1 p.2) [] = es := by
    have := foldl_setSlot_append es [] hkes (by intro p _; rfl)
    simpa using this
  have hes : SlotInv es := SlotInv_of_perm hinv hperm
  show ensureMapping (es.foldl (fun acc p => setSlot acc p.1 p.2) []) = es
  rw [hbuild]
  exact ensureMapping_id hes

lemma SlotInj_of_nodups {m : List (Int × Nat)} (hv : (m.map Prod.snd).Nodup) :
    SlotInj m := by
  intro u v su sv hu hv2 huv he
  have hmu := lookupSlot_mem hu
  have hmv := lookupSlot_mem hv2
  have : (u, su) = (v, sv) := by
    apply List.inj_on_of_nodup_map hv hmu hmv
    simpa using he
  exact huv (congrArg Prod.fst this)

/-- Claim C6: along every sequence of load, ensure_complete and swap
operations the station-to-slot mapping stays injective and total over the
station pool; a swap onto a slot owned by another station exchanges the
two stations' slots leaving every other station untouched and no station
unmapped, and a swap onto the dragged station's own slot is a no-op. -/
theorem slotMapping_invariant :
    (∀ m, LayoutReachable m → SlotInv m) ∧
    (∀ (m : List (Int × Nat)) (a b : Int) (t sa : Nat),
      (m.map Prod.fst).Nodup → lookupSlot m a = some sa →
      findDeviceAtSlot m t = some b → sa ≠ t →
      lookupSlot (swapSlot m a t) a = some t ∧
      lookupSlot (swapSlot m a t) b = some sa ∧
      (∀ x, x ≠ a → x ≠ b → lookupSlot (swapSlot m a t) x = lookupSlot m x) ∧
      (∀ x, (lookupSlot (swapSlot m a t) x).isSome ↔ (lookupSlot m x).isSome)) ∧
    (∀ (m : List (Int × Nat)) (a : Int) (t : Nat),
      lookupSlot m a = some t → swapSlot m a t = m) := by
  refine ⟨?_, ?_, ?_⟩
  · intro m hreach
    induction hreach with
    | fresh => exact SlotInv_loadFresh
    | loadSaved m es hm hperm ih =>
      rw [loadLayout_saved ih hperm]
      exact SlotInv_of_perm ih hperm
    | ensure m hm ih =>
      rw [ensureMapping_id ih]
      exact ih
    | swap m a t hm haDev ih => exact SlotInv_swapSlot t ih haDev
  · intro m a b t sa hk ha hfb hne
    obtain ⟨hba, hlb⟩ := swap_exchange_basics hk ha hfb hne
    have hlook := swapSlot_lookup_exchange hk ha hfb hne
    refine ⟨?_, ?_, ?_, ?_⟩
    · rw [hlook a, if_neg (fun hh => hba hh.symm), if_pos rfl]
    · rw [hlook b, if_pos rfl]
    · intro x hxa hxb
      rw [hlook x, if_neg hxb, if_neg hxa]
    · intro x
      rw [hlook x]
      by_cases hxb : x = b
      · rw [if_pos hxb, hxb]
        simp [hlb]
      · rw [if_neg hxb]
        by_cases hxa : x = a
        · rw [if_pos hxa, hxa]
          simp [ha]
        · rw [if_neg hxa]
  · intro m a t h
    exact swapSlot_noop h

/-- Concrete exercise of `slotMapping_invariant`: the synthesized fresh
mapping satisfies the invariant; on the mapping station 1 at slot 0 and
station 2 at slot 1, dragging 1 onto slot 1 exchanges the two; dragging 1
onto its own slot 0 changes nothing. -/
theorem slotMapping_invariant_witness :
    SlotInv (loadLayout none) ∧
    lookupSlot (swapSlot [((1 : Int), (0 : Nat)), (2, 1)] 1 1) 1 = some 1 ∧
    lookupSlot (swapSlot [((1 : Int), (0 : Nat)), (2, 1)] 1 1) 2 = some 0 ∧
    swapSlot [((1 : Int), (0 : Nat)), (2, 1)] 1 0 = [(1, 0), (2, 1)] := by
  refine ⟨?_, ?_, ?_, ?_⟩
  · exact slotMapping_invariant.1 (loadLayout none) LayoutReachable.fresh
  · exact (slotMapping_invariant.2.1 [(1, 0), (2, 1)] 1 2 1 0
      (by decide) (by rfl) (by rfl) (by decide)).1
  · exact (slotMapping_invariant.2.1 [(1, 0), (2, 1)] 1 2 1 0
      (by decide) (by rfl) (by rfl) (by decide)).2.1
  · exact slotMapping_invariant.2.2 [(1, 0), (2, 1)] 1 0 (by rfl)

/-- Claim C7, counterexample: with station 1 at slot 0 and station 2 at
slot 1, `swap(1, slot of 2)` followed by `swap(2, original slot of 1)`
does NOT restore the original mapping: after the first swap station 2
already sits on slot 0, so the second swap is a no-op and the mapping
stays exchanged. -/
theorem swap_pair_not_restored :
    swapSlot (swapSlot [((1 : Int), (0 : Nat)), (2, 1)] 1 1) 2 0 ≠
      [((1 : Int), (0 : Nat)), (2, 1)] ∧
    swapSlot (swapSlot [((1 : Int), (0 : Nat)), (2, 1)] 1 1) 2 0 =
      [((1 : Int), (1 : Nat)), (2, 0)] := by
  exact ⟨by decide, by rfl⟩

/-- Claim C7, amended: `swap(A, slotB)` followed by `swap(B, slotB)` —
that is, dragging B back onto its own ORIGINAL slot, which A now holds —
restores the original mapping exactly (for distinct mapped stations of an
injective unique-key mapping); `swap(B, slotA_original)` is instead a
no-op, because after the first swap B already owns A's original slot. -/
theorem swap_pair_restore (m : List (Int × Nat)) (a b : Int) (sa sb : Nat)
    (hk : (m.map Prod.fst).Nodup) (hv : (m.map Prod.snd).Nodup)
    (ha : lookupSlot m a = some sa) (hb : lookupSlot m b = some sb)
    (hab : a ≠ b) :
    swapSlot (swapSlot m a sb) b sb = m := by
  have hinj : SlotInj m := SlotInj_of_nodups hv
  have hsab : sa ≠ sb := hinj a b sa sb ha hb hab
  have hfb : findDeviceAtSlot m sb = some b := findDeviceAtSlot_of_lookup m hk hinj b sb hb
  have h1 : swapSlot m a sb = setSlot (setSlot m a sb) b sa :=
    swapSlot_eq_exchange ha hfb hsab
  have hlook := swapSlot_lookup_exchange hk ha hfb hsab
  have haK : a ∈ m.map Prod.fst := (lookupSlot_isSome_iff m a).mp (by simp [ha])
  have hbK : b ∈ m.map Prod.fst := (lookupSlot_isSome_iff m b).mp (by simp [hb])
  have hkeys1 : (swapSlot m a sb).map Prod.fst = m.map Prod.fst := swapSlot_keys sb hk haK
  have hk1 : ((swapSlot m a sb).map Prod.fst).Nodup := by
    rw [hkeys1]
    exact hk
  have hinj1 : SlotInj (swapSlot m a sb) := SlotInj_swap_exchange hk hinj ha hfb hsab
  have hla1 : lookupSlot (swapSlot m a sb) a = some sb := by
    rw [hlook a, if_neg (fun hh => hab (hh.trans rfl)), if_pos rfl]
  have hlb1 : lookupSlot (swapSlot m a sb) b = some sa := by
    rw [hlook b, if_pos rfl]
  have hfa : findDeviceAtSlot (swapSlot m a sb) sb = some a :=
    findDeviceAtSlot_of_lookup _ hk1 hinj1 a sb hla1
  have h2 : swapSlot (swapSlot m a sb) b sb =
      setSlot (setSlot (swapSlot m a sb) b sb) a sa :=
    swapSlot_eq_exchange hlb1 hfa hsab
  rw [h2, h1, setSlot_setSlot_same, setSlot_comm hab haK sb sb,
    setSlot_setSlot_same, setSlot_of_lookup hb, setSlot_of_lookup ha]

/-- Concrete exercise of `swap_pair_restore`: with station 1 at slot 0
and station 2 at slot 1, `swap(1, 1)` then `swap(2, 1)` restores the
original mapping. -/
theorem swap_pair_restore_witness :
    swapSlot (swapSlot [((1 : Int), (0 : Nat)), (2, 1)] 1 1) 2 1 =
      [((1 : Int), (0 : Nat)), (2, 1)] := by
  exact swap_pair_restore [(1, 0), (2, 1)] 1 2 0 1
    (by decide) (by decide) (by rfl) (by rfl) (by decide)

end Lounge
